import Mathlib

/-!
Verification of the obsidian-expander core against its specification.

This file shallowly embeds the expression evaluator, the marker scanner
(`src/utils/regex.ts`), the replacement engine
(`src/app/services/file-processor.service.ts`), the key validation
(`src/utils/validation.ts`), the frontmatter side-channel
(`src/utils/frontmatter.ts`) and the date utilities (`src/utils/date.ts`)
as executable Lean definitions, and proves or refutes the frozen claims
about them.

Modelling conventions:
* JavaScript strings are modelled as `List Char` (`Str`); all offsets are
  character offsets.  Every input exercised by the claims is ASCII, where
  character offsets and UTF-16 offsets coincide.
* The marker regexes of `regex.ts` are embedded as hand-written scanners
  that reproduce the exact backtracking/leftmost-match semantics of the
  source patterns (see the comments on each scanner function).
* JavaScript runtime / external-library primitives (`String.prototype`
  methods, `Number`, `parseFloat`, date-fns `parseISO`/`format`) are
  modelled on the documented subset the repository exercises; each such
  model carries a comment describing the subset.
* Code that can throw in the source is embedded in the `Except` monad;
  total code is embedded as total functions.
-/

/-- JavaScript strings, modelled as lists of characters. -/
abbrev Str := List Char

/-- Embed a Lean string literal as a `Str`. -/
def lit (s : String) : Str := s.data

/-- The single-quote character (written via its code point). -/
def sqChar : Char := Char.ofNat 39

/-- The double-quote character (written via its code point). -/
def dqChar : Char := Char.ofNat 34

/-- The backtick character (written via its code point). -/
def btChar : Char := Char.ofNat 96

/-- The backslash character (written via its code point). -/
def bsChar : Char := Char.ofNat 92

/-- JavaScript whitespace (the class matched by `\s` and trimmed by
`String.prototype.trim`): tab, LF, VT, FF, CR, space, NBSP, the Unicode
space separators, LS, PS and the BOM. -/
def isJsWs (c : Char) : Bool :=
  let n := c.toNat
  n = 9 || n = 10 || n = 11 || n = 12 || n = 13 || n = 32 || n = 160 ||
  n = 5760 || (8192 ≤ n && n ≤ 8202) || n = 8232 || n = 8233 ||
  n = 8239 || n = 8287 || n = 12288 || n = 65279

/-- Model of `String.prototype.trim`. -/
def jsTrim (s : Str) : Str :=
  ((s.dropWhile isJsWs).reverse.dropWhile isJsWs).reverse

/-- Strip a literal prefix, returning the rest on success. -/
def stripPre : Str → Str → Option Str
  | [], s => some s
  | _ :: _, [] => none
  | p :: ps, c :: cs => if c = p then stripPre ps cs else none

/-- Take the maximal leading run of characters satisfying `p`. -/
def takeRunP (p : Char → Bool) : Str → Str × Str
  | [] => ([], [])
  | c :: cs =>
    if p c then
      let r := takeRunP p cs
      (c :: r.1, r.2)
    else ([], c :: cs)

/-- Model of `String.prototype.indexOf(pat, from)` (first occurrence at
position `≥ i`, `none` for JavaScript's `-1`). -/
def findSubFrom (fuel : Nat) (t pat : Str) (i : Nat) : Option Nat :=
  match fuel with
  | 0 => none
  | fu + 1 =>
    if t.length < i + pat.length then none
    else if pat.isPrefixOf (t.drop i) then some i
    else findSubFrom fu t pat (i + 1)

/-- Insert `ins` at character offset `i` (the
`t.substring(0, i) + ins + t.substring(i)` idiom of the source). -/
def insertAt (t : Str) (i : Nat) (ins : Str) : Str :=
  t.take i ++ ins ++ t.drop i

/-- Model of `String.prototype.split('\n')`. -/
def splitOnNl : Str → List Str
  | [] => [[]]
  | c :: cs =>
    let r := splitOnNl cs
    if c = '\n' then [] :: r
    else
      match r with
      | h :: t => (c :: h) :: t
      | [] => [[c]]

/-- Model of `Array.prototype.join('\n')`. -/
def joinNl (l : List Str) : Str := List.intercalate (lit "\n") l

/- ----------------------------------------------------------------- -/
/- Marker scanner (`src/utils/regex.ts`)                              -/
/- ----------------------------------------------------------------- -/

/-- `UpdateMode` from `src/app/constants.ts`:
`'auto' | 'manual' | 'once' | 'once-and-eject'`. -/
inductive UpdateMode
  | auto
  | manual
  | once
  | onceAndEject
deriving DecidableEq, Repr

/-- `markerToMode` from `regex.ts`: map the matched marker word to its
update mode (default `auto`). -/
def markerToMode (w : Str) : UpdateMode :=
  if w = lit "expand" then .auto
  else if w = lit "expand-manual" then .manual
  else if w = lit "expand-once" then .once
  else if w = lit "expand-once-and-eject" then .onceAndEject
  else .auto

/-- Characters allowed in marker keys by the source regex class
`[a-z0-9]`. -/
def isKeyChar (c : Char) : Bool :=
  (97 ≤ c.toNat && c.toNat ≤ 122) || (48 ≤ c.toNat && c.toNat ≤ 57)

/-- All backtracking snapshots of the greedy parse of
`[a-z0-9]+(?:-[a-z0-9]+)*` after an initial run `acc`: each snapshot is a
candidate key together with the rest of the input at that point, from the
shortest (just `acc`) to the longest (all groups consumed).  The regex
engine prefers the longest and pops one `-run` group per backtracking
step; shrinking a run itself can never help because the next character is
then alphanumeric and can start neither `\s*` nor `-->`. -/
def kebabSnaps (fuel : Nat) (acc : Str) (s : Str) : List (Str × Str) :=
  match fuel with
  | 0 => [(acc, s)]
  | fu + 1 =>
    (acc, s) ::
      (match s with
       | '-' :: s1 =>
         match takeRunP isKeyChar s1 with
         | ([], _) => []
         | (r, s2) => kebabSnaps fu (acc ++ '-' :: r) s2
       | _ => [])

/-- Attempt to match `\s*-->` at the head of `t`. -/
def tryEndArrow (t : Str) : Option Str :=
  stripPre (lit "-->") (t.dropWhile isJsWs)

/-- Match `([a-z0-9]+(?:-[a-z0-9]+)*)\s*-->` at the head of `s`,
returning the captured key and the rest after `-->`.  Candidates are
tried longest-first, mirroring the greedy star with backtracking. -/
def matchKeyArrow (s : Str) : Option (Str × Str) :=
  let pr := takeRunP isKeyChar s
  if pr.1 = [] then none
  else
    ((kebabSnaps (pr.2.length + 1) pr.1 pr.2).reverse.findSome? fun snap =>
      (tryEndArrow snap.2).map fun rest => (snap.1, rest))

/-- The marker-word suffix alternatives of
`expand(?:-(?:manual|once(?:-and-eject)?))?` in the order the regex
engine tries them (alternation order, greedy optional groups first). -/
def openSuffixes : List Str :=
  [lit "-manual", lit "-once-and-eject", lit "-once", []]

/-- Match the opening-marker pattern
`<!--\s*(expand(?:-(?:manual|once(?:-and-eject)?))?):\s*([a-z0-9]+(?:-[a-z0-9]+)*)\s*-->`
at the head of `s`.  Returns the marker word, the key and the number of
characters consumed. -/
def matchOpeningSuffix (s : Str) : Option (Str × Str × Nat) :=
  match stripPre (lit "<!--") s with
  | none => none
  | some s1 =>
    let s2 := s1.dropWhile isJsWs
    match stripPre (lit "expand") s2 with
    | none => none
    | some s3 =>
      openSuffixes.findSome? fun suf =>
        match stripPre suf s3 with
        | none => none
        | some s4 =>
          match s4 with
          | ':' :: s5 =>
            let s6 := s5.dropWhile isJsWs
            match matchKeyArrow s6 with
            | none => none
            | some (key, rest) =>
              some (lit "expand" ++ suf, key, s.length - rest.length)
          | _ => none

/-- Match the universal closing marker pattern `<!--\s*-->` at the head of
`s`, returning the number of characters consumed. -/
def matchCloseSuffix (s : Str) : Option Nat :=
  match stripPre (lit "<!--") s with
  | none => none
  | some s1 =>
    match stripPre (lit "-->") (s1.dropWhile isJsWs) with
    | none => none
    | some rest => some (s.length - rest.length)

/-- Leftmost opening-marker match at a position `≥ i`:
`(start, word, key, end)`. -/
def findOpeningFrom (fuel : Nat) (t : Str) (i : Nat) :
    Option (Nat × Str × Str × Nat) :=
  match fuel with
  | 0 => none
  | fu + 1 =>
    if t.length ≤ i then none
    else
      match matchOpeningSuffix (t.drop i) with
      | some (w, k, n) => some (i, w, k, i + n)
      | none => findOpeningFrom fu t (i + 1)

/-- Leftmost closing-marker match at a position `≥ i`: `(start, end)`. -/
def findCloseFrom (fuel : Nat) (t : Str) (i : Nat) : Option (Nat × Nat) :=
  match fuel with
  | 0 => none
  | fu + 1 =>
    if t.length ≤ i then none
    else
      match matchCloseSuffix (t.drop i) with
      | some n => some (i, i + n)
      | none => findCloseFrom fu t (i + 1)

/-- `ExpanderMatch` from `src/app/types/expander.types.ts`. -/
structure ExpanderMatch where
  key : Str
  currentValue : Str
  startOffset : Nat
  endOffset : Nat
  fullMatch : Str
  updateMode : UpdateMode
  openMarker : Str
  closeMarker : Str
deriving DecidableEq, Repr

/-- The repeated-`exec` loop of `findExpansions` over `EXPANDER_REGEX`.
A complete match is the leftmost opening marker at/after `pos` whose
non-greedy inner text `[\s\S]*?` extends to the first following
occurrence of the closing pattern `<!--\s*-->`; scanning resumes at the
end of the match (`lastIndex`).  Opening markers contain no second `<`,
so openings never overlap and the leftmost full match always starts at
the leftmost opening (see `regex.ts` lines 40-75). -/
def findExpansionsAux (fuel : Nat) (t : Str) (pos : Nat) :
    List ExpanderMatch :=
  match fuel with
  | 0 => []
  | fu + 1 =>
    match findOpeningFrom (t.length + 1) t pos with
    | none => []
    | some (st, word, key, oEnd) =>
      match findCloseFrom (t.length + 1) t oEnd with
      | none => []
      | some (cSt, cEnd) =>
        { key := key
          currentValue := (t.take cSt).drop oEnd
          startOffset := st
          endOffset := cEnd
          fullMatch := (t.take cEnd).drop st
          updateMode := markerToMode word
          openMarker := lit "<!-- " ++ word ++ lit ": " ++ key ++ lit " -->"
          closeMarker := lit "<!---->" } :: findExpansionsAux fu t cEnd

/-- `findExpansions` from `regex.ts`. -/
def findExpansions (t : Str) : List ExpanderMatch :=
  findExpansionsAux (t.length + 1) t 0

/-- `IncompleteExpansion` from `src/app/types/expander.types.ts`. -/
structure IncompleteExpansion where
  key : Str
  startOffset : Nat
  endOffset : Nat
  openMarker : Str
  updateMode : UpdateMode
deriving DecidableEq, Repr

/-- The repeated-`exec` loop over `OPENING_MARKER_REGEX`: all opening
markers, left to right, scanning resuming after each match. -/
def findOpeningsAux (fuel : Nat) (t : Str) (pos : Nat) :
    List (Nat × Str × Str × Nat) :=
  match fuel with
  | 0 => []
  | fu + 1 =>
    match findOpeningFrom (t.length + 1) t pos with
    | none => []
    | some (st, w, k, en) => (st, w, k, en) :: findOpeningsAux fu t en

/-- `findIncompleteExpansions` from `regex.ts`: every opening marker whose
start offset is not the start offset of a complete match. -/
def findIncompleteExpansions (t : Str) : List IncompleteExpansion :=
  let paired := (findExpansions t).map (fun m => m.startOffset)
  (findOpeningsAux (t.length + 1) t 0).filterMap fun o =>
    match o with
    | (st, w, k, en) =>
      if st ∈ paired then none
      else
        some { key := k
               startOffset := st
               endOffset := en
               openMarker := (t.take en).drop st
               updateMode := markerToMode w }

/- ----------------------------------------------------------------- -/
/- Key validation (`src/utils/validation.ts`, `src/app/constants.ts`) -/
/- ----------------------------------------------------------------- -/

/-- Tail of the anchored kebab-case pattern: `(-[a-z0-9]+)*$`.  The
greedy deterministic scan coincides with the regex: after a maximal
alphanumeric run the next character must be `-` (starting another group)
or the end of the string. -/
def kebabTail (fuel : Nat) (s : Str) : Bool :=
  match fuel with
  | 0 => false
  | fu + 1 =>
    match s with
    | [] => true
    | a :: s1 =>
      if a = '-' then
        match takeRunP isKeyChar s1 with
        | ([], _) => false
        | (_ :: _, s2) => kebabTail fu s2
      else false

/-- `KEY_PATTERN` from `src/app/constants.ts`:
`/^[a-z0-9]+(-[a-z0-9]+)*$/`. -/
def keyPatternTest (k : Str) : Bool :=
  match takeRunP isKeyChar k with
  | ([], _) => false
  | (_, rest) => kebabTail (k.length + 1) rest

/-- Modelled from the spec: `PROP_KEY_PATTERN` is imported by
`validation.ts` from `src/app/constants.ts`, but the revision of
`constants.ts` under `src/` predates it and does not define it.  The spec
describes property keys as "the literal prefix `prop.` followed by an
unrestricted non-empty remainder (property keys permit spaces,
underscores, dots)", and the doc comment in `validation.ts` agrees
(`"prop." followed by any non-empty property name`). -/
def propKeyPatternTest (k : Str) : Bool :=
  (lit "prop.").isPrefixOf k && decide (5 < k.length)

/-- `isValidKey` from `src/utils/validation.ts`: the empty-string guard,
then `KEY_PATTERN.test(key) || PROP_KEY_PATTERN.test(key)`. -/
def isValidKey (k : Str) : Bool :=
  if k = [] then false
  else keyPatternTest k || propKeyPatternTest k

/- ----------------------------------------------------------------- -/
/- Frontmatter side-channel (`src/utils/frontmatter.ts`)              -/
/- ----------------------------------------------------------------- -/

/-- `isPropertyKey` from `frontmatter.ts`: `key.startsWith('prop.')`. -/
def isPropertyKey (k : Str) : Bool := (lit "prop.").isPrefixOf k

/-- `getPropertyName` from `frontmatter.ts`: strip the `prop.` prefix. -/
def getPropertyName (k : Str) : Str :=
  if isPropertyKey k then k.drop 5 else k

/-- Decimal digit characters. -/
def isDigit09 (c : Char) : Bool := 48 ≤ c.toNat && c.toNat ≤ 57

/-- Hex digit characters. -/
def isHexDigit (c : Char) : Bool :=
  isDigit09 c || (97 ≤ c.toNat && c.toNat ≤ 102) ||
  (65 ≤ c.toNat && c.toNat ≤ 70)

/-- Decimal-literal body of the `Number()` grammar:
`digits [. digits] [exp] | . digits [exp]`. -/
def decimalLitTest (s : Str) : Bool :=
  let (intp, r1) := takeRunP isDigit09 s
  let afterDot :=
    match r1 with
    | '.' :: r2 =>
      let (frac, r3) := takeRunP isDigit09 r2
      if intp = [] && frac = [] then none else some r3
    | _ => if intp = [] then none else some r1
  match afterDot with
  | none => false
  | some r3 =>
    match r3 with
    | [] => true
    | e :: r4 =>
      if e = 'e' || e = 'E' then
        let r5 := match r4 with
                  | '+' :: r => r
                  | '-' :: r => r
                  | r => r
        let (ex, r6) := takeRunP isDigit09 r5
        ex ≠ [] && r6 = []
      else false

/-- Model of the JavaScript `Number(string)` conversion returning a
non-`NaN` value (the external `StringNumericLiteral` grammar): empty or
whitespace-only strings convert to `0`; otherwise an optionally signed
decimal literal or `Infinity`, or an unsigned `0x`/`0o`/`0b` literal. -/
def jsIsNumericString (v : Str) : Bool :=
  let t := jsTrim v
  if t = [] then true
  else
    let signedBody := fun (s : Str) =>
      s = lit "Infinity" || decimalLitTest s
    match t with
    | '+' :: r => signedBody r
    | '-' :: r => signedBody r
    | '0' :: 'x' :: r => r ≠ [] && r.all isHexDigit
    | '0' :: 'X' :: r => r ≠ [] && r.all isHexDigit
    | '0' :: 'o' :: r => r ≠ [] && r.all (fun c => 48 ≤ c.toNat && c.toNat ≤ 55)
    | '0' :: 'O' :: r => r ≠ [] && r.all (fun c => 48 ≤ c.toNat && c.toNat ≤ 55)
    | '0' :: 'b' :: r => r ≠ [] && r.all (fun c => c = '0' || c = '1')
    | '0' :: 'B' :: r => r ≠ [] && r.all (fun c => c = '0' || c = '1')
    | s => signedBody s

/-- Frontmatter values after the best-effort coercion in
`parseFrontmatter`.  Numeric values are represented by their literal
text (`fnum`): no claim depends on the numeric conversion itself, only on
which coercion branch is taken. -/
inductive FmValue
  | fstr (s : Str)
  | fbool (b : Bool)
  | fnum (s : Str)
deriving DecidableEq, Repr

/-- `FrontmatterResult` from `frontmatter.ts`. -/
structure FrontmatterResult where
  existsFlag : Bool
  data : List (Str × FmValue)
  startOffset : Nat
  endOffset : Nat
  raw : Str
deriving DecidableEq, Repr

/-- First occurrence of a character in a string (JS `indexOf`). -/
def indexOfChar (s : Str) (c : Char) : Option Nat :=
  findSubFrom (s.length + 1) s [c] 0

/-- Model of `data[key] = value` on a JavaScript object: overwrite in
place if present, else append. -/
def insertAssoc (d : List (Str × FmValue)) (k : Str) (v : FmValue) :
    List (Str × FmValue) :=
  match d with
  | [] => [(k, v)]
  | (k0, v0) :: rest =>
    if k0 = k then (k, v) :: rest else (k0, v0) :: insertAssoc rest k v

/-- JS `value.slice(1, -1)` on a non-empty string. -/
def sliceOneMinusOne (v : Str) : Str := (v.take (v.length - 1)).drop 1

/-- One iteration of the line loop in `parseFrontmatter`: skip blank and
`#` lines, split at the first `:`, trim, unwrap matching quotes, then
coerce `true`/`false` and numeric-looking values. -/
def parseFmLine (data : List (Str × FmValue)) (line : Str) :
    List (Str × FmValue) :=
  let trimmed := jsTrim line
  if trimmed = [] || trimmed.head? = some '#' then data
  else
    match indexOfChar trimmed ':' with
    | none => data
    | some ci =>
      let key := jsTrim (trimmed.take ci)
      let v0 := jsTrim (trimmed.drop (ci + 1))
      let s1 :=
        if (v0.head? = some dqChar && v0.getLast? = some dqChar) ||
           (v0.head? = some sqChar && v0.getLast? = some sqChar) then
          sliceOneMinusOne v0
        else v0
      let fmv : FmValue :=
        if s1 = lit "true" then .fbool true
        else if s1 = lit "false" then .fbool false
        else if jsIsNumericString s1 && s1 ≠ [] then .fnum s1
        else .fstr s1
      if key = [] then data else insertAssoc data key fmv

/-- `parseFrontmatter` from `frontmatter.ts`: requires the content to
start with `---`, finds the closing `\n---` from offset 3, and parses the
raw block line by line. -/
def parseFrontmatter (content : Str) : Option FrontmatterResult :=
  if (lit "---").isPrefixOf content then
    match findSubFrom (content.length + 1) content (lit "\n---") 3 with
    | none => none
    | some endMatch =>
      let raw := (content.take endMatch).drop 4
      let endOffset := endMatch + 4
      let data := (splitOnNl raw).foldl parseFmLine []
      some { existsFlag := true, data := data, startOffset := 0,
             endOffset := endOffset, raw := raw }
  else none

/-- `value.replace(/"/g, '\\"')` from `formatYamlValue`. -/
def escapeDoubleQuotes : Str → Str
  | [] => []
  | c :: cs =>
    if c = dqChar then bsChar :: dqChar :: escapeDoubleQuotes cs
    else c :: escapeDoubleQuotes cs

/-- `formatYamlValue` from `frontmatter.ts`. -/
def formatYamlValue (v : Str) : Str :=
  let needsQuotes :=
    v.contains ':' || v.contains '#' || v.contains sqChar ||
    v.contains dqChar || v.contains '\n' ||
    (v.head? = some ' ') || (v.getLast? = some ' ') ||
    v = lit "true" || v = lit "false" || v = lit "null" || v = [] ||
    jsIsNumericString v
  if needsQuotes then dqChar :: escapeDoubleQuotes v ++ [dqChar] else v

/-- `updateFrontmatterProperty` from `frontmatter.ts`: synthesize a
header if none exists, replace the property line in place if present,
otherwise append it before the closing delimiter. -/
def updateFrontmatterProperty (content propertyName value : Str) : Str :=
  match parseFrontmatter content with
  | none =>
    lit "---\n" ++ propertyName ++ lit ": " ++ formatYamlValue value ++
      lit "\n---\n" ++ content
  | some parsed =>
    let lines := splitOnNl parsed.raw
    let step := fun (acc : List Str × Bool) (line : Str) =>
      if (propertyName ++ [':']).isPrefixOf (jsTrim line) then
        (acc.1 ++ [propertyName ++ lit ": " ++ formatYamlValue value], true)
      else (acc.1 ++ [line], acc.2)
    let r := lines.foldl step ([], false)
    let newLines :=
      if r.2 then r.1
      else r.1 ++ [propertyName ++ lit ": " ++ formatYamlValue value]
    lit "---\n" ++ joinNl newLines ++ lit "\n---" ++
      content.drop parsed.endOffset

/-- `getFrontmatterProperty` from `frontmatter.ts`. -/
def getFrontmatterProperty (content propertyName : Str) : Option FmValue :=
  match parseFrontmatter content with
  | none => none
  | some parsed =>
    (parsed.data.find? (fun p => p.1 = propertyName)).map (fun p => p.2)

/- ----------------------------------------------------------------- -/
/- Replacement engine (`src/app/services/file-processor.service.ts`)  -/
/- ----------------------------------------------------------------- -/

/-- The processing scope passed to `replaceExpansions`:
`'auto'` for automatic triggers, `'all'` for explicit commands. -/
inductive ProcessingMode
  | auto
  | all
deriving DecidableEq, Repr

/-- `PropertyUpdate` from `src/app/types/expander.types.ts`. -/
structure PropertyUpdate where
  propertyName : Str
  value : Str
deriving DecidableEq, Repr

/-- `ReplacementResult` from `src/app/types/expander.types.ts`. -/
structure ReplacementResult where
  newContent : Option Str
  unknownKeys : List Str
  replacementsCount : Nat
  propertyUpdates : List PropertyUpdate
deriving DecidableEq, Repr

/-- `MODE_TO_OPEN_MARKER[mode] + key + EXPANDER_CLOSE` from
`buildOpenMarker` and `src/app/constants.ts`. -/
def buildOpenMarker (m : UpdateMode) (key : Str) : Str :=
  (match m with
   | .auto => lit "<!-- expand: "
   | .manual => lit "<!-- expand-manual: "
   | .once => lit "<!-- expand-once: "
   | .onceAndEject => lit "<!-- expand-once-and-eject: ") ++ key ++ lit " -->"

/-- `buildCloseMarker` (the universal closing marker `EXPANDER_END`). -/
def buildCloseMarker : Str := lit "<!---->"

/-- The `if (!unknownKeys.includes(key)) unknownKeys.push(key)` idiom. -/
def pushUnique (l : List Str) (k : Str) : List Str :=
  if k ∈ l then l else l ++ [k]

/-- Mutable state threaded through the incomplete-expansion loop of
`completeIncompleteExpansions` (the `newContent` local plus the caller's
`unknownKeys`/`propertyUpdates` arrays and the `count` local). -/
structure IncState where
  content : Str
  unknownKeys : List Str
  propertyUpdates : List PropertyUpdate
  count : Nat
deriving DecidableEq, Repr

/-- One iteration of the loop body of `completeIncompleteExpansions`
(file-processor.service.ts lines 304-368). -/
def processIncomplete (mode : ProcessingMode) (resolver : Str → Option Str)
    (st : IncState) (inc : IncompleteExpansion) : IncState :=
  if mode = .auto ∧ inc.updateMode ≠ .auto then st
  else
    match resolver inc.key with
    | none =>
      let st1 := { st with unknownKeys := pushUnique st.unknownKeys inc.key }
      if isPropertyKey inc.key then st1
      else
        { st1 with
          content := insertAt st1.content inc.endOffset buildCloseMarker
          count := st1.count + 1 }
    | some v =>
      if isPropertyKey inc.key then
        { st with
          propertyUpdates :=
            st.propertyUpdates ++ [⟨getPropertyName inc.key, v⟩]
          count := st.count + 1 }
      else if inc.updateMode = .onceAndEject then
        { st with
          content :=
            st.content.take inc.startOffset ++ v ++
              st.content.drop inc.endOffset
          count := st.count + 1 }
      else
        if v.isPrefixOf (st.content.drop inc.endOffset) then
          { st with
            content :=
              insertAt st.content (inc.endOffset + v.length) buildCloseMarker
            count := st.count + 1 }
        else
          { st with
            content := insertAt st.content inc.endOffset (v ++ buildCloseMarker)
            count := st.count + 1 }

/-- Stable insertion of an incomplete expansion into a list sorted by
descending start offset (`sort((a, b) => b.startOffset - a.startOffset)`). -/
def insertIncDesc (m : IncompleteExpansion) :
    List IncompleteExpansion → List IncompleteExpansion
  | [] => [m]
  | n :: ns =>
    if m.startOffset < n.startOffset then n :: insertIncDesc m ns
    else m :: n :: ns

/-- Sort incomplete expansions by descending start offset (stable). -/
def sortIncDesc (l : List IncompleteExpansion) : List IncompleteExpansion :=
  l.foldr insertIncDesc []

/-- Return type of `completeIncompleteExpansions` together with the
mutations to the caller's `unknownKeys`/`propertyUpdates` arrays. -/
structure IncResult where
  content : Str
  changed : Bool
  count : Nat
  unknownKeys : List Str
  propertyUpdates : List PropertyUpdate
deriving DecidableEq, Repr

/-- `completeIncompleteExpansions` from `file-processor.service.ts`
(lines 285-371): scan for unpaired opening markers, process them from the
highest offset down, completing each according to its mode and key. -/
def completeIncompleteExpansions (content : Str) (mode : ProcessingMode)
    (uk : List Str) (pu : List PropertyUpdate)
    (resolver : Str → Option Str) : IncResult :=
  let incomplete := findIncompleteExpansions content
  if incomplete.isEmpty then
    { content := content, changed := false, count := 0,
      unknownKeys := uk, propertyUpdates := pu }
  else
    let sorted := sortIncDesc incomplete
    let fin := sorted.foldl (processIncomplete mode resolver)
      { content := content, unknownKeys := uk, propertyUpdates := pu,
        count := 0 }
    { content := fin.content, changed := decide (0 < fin.count),
      count := fin.count, unknownKeys := fin.unknownKeys,
      propertyUpdates := fin.propertyUpdates }

/-- Mutable state threaded through the complete-match loop of
`replaceExpansions`. -/
structure MatchState where
  content : Str
  unknownKeys : List Str
  propertyUpdates : List PropertyUpdate
  count : Nat
  hasChanges : Bool
deriving DecidableEq, Repr

/-- `replaceMatch` from `file-processor.service.ts`: replace the whole
match span with a canonical open marker, the new value and the universal
closing marker. -/
def replaceMatch (content : Str) (m : ExpanderMatch) (v : Str) : Str :=
  content.take m.startOffset ++
    (buildOpenMarker m.updateMode m.key ++ v ++ buildCloseMarker) ++
    content.drop m.endOffset

/-- One iteration of the complete-match loop body of `replaceExpansions`
(file-processor.service.ts lines 211-272): skip non-auto modes in auto
processing, skip populated `once`/`once-and-eject` spans, report unknown
keys, skip unchanged values, route `prop.` keys to property updates,
eject `once-and-eject` matches, otherwise rewrite the span. -/
def processMatch (mode : ProcessingMode) (resolver : Str → Option Str)
    (st : MatchState) (m : ExpanderMatch) : MatchState :=
  if mode = .auto ∧ m.updateMode ≠ .auto then st
  else if (m.updateMode = .once ∨ m.updateMode = .onceAndEject) ∧
      jsTrim m.currentValue ≠ [] then st
  else
    match resolver m.key with
    | none => { st with unknownKeys := pushUnique st.unknownKeys m.key }
    | some v =>
      if m.currentValue = v then
        if isPropertyKey m.key then
          { st with
            propertyUpdates :=
              st.propertyUpdates ++ [⟨getPropertyName m.key, v⟩] }
        else st
      else if isPropertyKey m.key then
        { st with
          propertyUpdates :=
            st.propertyUpdates ++ [⟨getPropertyName m.key, v⟩]
          count := st.count + 1
          hasChanges := true }
      else if m.updateMode = .onceAndEject then
        { st with
          content :=
            st.content.take m.startOffset ++ v ++ st.content.drop m.endOffset
          count := st.count + 1
          hasChanges := true }
      else
        { st with
          content := replaceMatch st.content m v
          count := st.count + 1
          hasChanges := true }

/-- Stable insertion of a match into a list sorted by descending start
offset. -/
def insertMatchDesc (m : ExpanderMatch) :
    List ExpanderMatch → List ExpanderMatch
  | [] => [m]
  | n :: ns =>
    if m.startOffset < n.startOffset then n :: insertMatchDesc m ns
    else m :: n :: ns

/-- Sort matches by descending start offset (stable). -/
def sortMatchDesc (l : List ExpanderMatch) : List ExpanderMatch :=
  l.foldr insertMatchDesc []

/-- `replaceExpansions` from `file-processor.service.ts` (lines 177-280):
first complete the incomplete expansions, then process the complete
matches of the updated content from the highest offset down.  The key
resolver stands for `expanderService.getReplacementValue` with the
evaluation context already applied. -/
def replaceExpansions (content : Str) (mode : ProcessingMode)
    (resolver : Str → Option Str) : ReplacementResult :=
  let ir := completeIncompleteExpansions content mode [] [] resolver
  let c1 := if ir.changed then ir.content else content
  let cnt1 := if ir.changed then ir.count else 0
  let ms := findExpansions c1
  let sorted := sortMatchDesc ms
  let fin := sorted.foldl (processMatch mode resolver)
    { content := c1, unknownKeys := ir.unknownKeys,
      propertyUpdates := ir.propertyUpdates, count := cnt1,
      hasChanges := ir.changed }
  { newContent := if fin.hasChanges then some fin.content else none
    unknownKeys := fin.unknownKeys
    replacementsCount := fin.count
    propertyUpdates := fin.propertyUpdates }

/- ----------------------------------------------------------------- -/
/- Date utilities (`src/utils/date.ts`)                               -/
/- ----------------------------------------------------------------- -/

/-- A JavaScript `Date`, modelled as a civil date-time plus a validity
flag (`valid = false` is the NaN-valued "Invalid Date").  The embedding
fixes the environment timezone to UTC, so the local civil fields used by
formatting and the UTC fields used by `toISOString` coincide. -/
structure JsDate where
  valid : Bool
  year : Int
  month : Nat
  day : Nat
  hour : Nat
  minute : Nat
  second : Nat
  ms : Nat
deriving DecidableEq, Repr

/-- The NaN-valued "Invalid Date". -/
def invalidDate : JsDate :=
  { valid := false, year := 0, month := 0, day := 0, hour := 0,
    minute := 0, second := 0, ms := 0 }

/-- Gregorian leap-year test. -/
def isLeapYear (y : Int) : Bool :=
  (y % 4 = 0 && y % 100 ≠ 0) || y % 400 = 0

/-- Days in a Gregorian month. -/
def daysInMonth (y : Int) (m : Nat) : Nat :=
  if m = 2 then (if isLeapYear y then 29 else 28)
  else if m = 4 || m = 6 || m = 9 || m = 11 then 30
  else 31

/-- A civil calendar date at local midnight, validated (this is what
date-fns `parseISO` produces for a `yyyy-MM-dd` input, with out-of-range
components yielding an Invalid Date). -/
def mkCivilDate (y : Int) (m d : Nat) : JsDate :=
  if 1 ≤ m ∧ m ≤ 12 ∧ 1 ≤ d ∧ d ≤ daysInMonth y m then
    { valid := true, year := y, month := m, day := d, hour := 0,
      minute := 0, second := 0, ms := 0 }
  else invalidDate

/-- Numeric value of a run of decimal digits. -/
def digitsToNat (s : Str) : Nat :=
  s.foldl (fun acc c => acc * 10 + (c.toNat - 48)) 0

/-- Model of date-fns `parseISO` (external library) on the calendar-date
subset the repository reaches it with: `yyyy`, `yyyy-MM` and
`yyyy-MM-dd`.  Other ISO 8601 shapes (times, week dates, ordinal dates)
are conservatively modelled as Invalid Date; the repository's own
`createDateFromString` only builds canonical `yyyy-MM-dd` strings for the
first three parsing attempts. -/
def parseISOsub (s : Str) : JsDate :=
  let (y4, r1) := takeRunP isDigit09 s
  if y4.length = 4 then
    let y : Int := Int.ofNat (digitsToNat y4)
    match r1 with
    | [] => mkCivilDate y 1 1
    | '-' :: r2 =>
      let (m2, r3) := takeRunP isDigit09 r2
      if m2.length = 2 then
        match r3 with
        | [] => mkCivilDate y (digitsToNat m2) 1
        | '-' :: r4 =>
          let (d2, r5) := takeRunP isDigit09 r4
          if d2.length = 2 && r5 = [] then
            mkCivilDate y (digitsToNat m2) (digitsToNat d2)
          else invalidDate
        | _ => invalidDate
      else invalidDate
    | _ => invalidDate
  else invalidDate

/-- `DateValue` from `date.ts`: a wrapper around a `Date`. -/
structure DateValue where
  date : JsDate
deriving DecidableEq, Repr

/-- Leftmost occurrence of the pattern `\d{4}sep\d{2}sep\d{2}` in `t`
(the `trimmed.match(/(\d{4})-(\d{2})-(\d{2})/)` extraction), returning
the three captured numbers. -/
def findYmdFrom (fuel : Nat) (sep : Char) (t : Str) (i : Nat) :
    Option (Nat × Nat × Nat) :=
  match fuel with
  | 0 => none
  | fu + 1 =>
    if t.length < i + 10 then none
    else
      let sub := t.drop i
      let y := sub.take 4
      let m := (sub.drop 5).take 2
      let d := (sub.drop 8).take 2
      if y.all isDigit09 && sub.get? 4 = some sep && m.all isDigit09 &&
          sub.get? 7 = some sep && d.all isDigit09 then
        some (digitsToNat y, digitsToNat m, digitsToNat d)
      else findYmdFrom fu sep t (i + 1)

/-- Leftmost `\d{4}sep\d{2}sep\d{2}` occurrence anywhere in `t`. -/
def findYmd (sep : Char) (t : Str) : Option (Nat × Nat × Nat) :=
  findYmdFrom (t.length + 1) sep t 0

/-- Anchored `^(\d{4})(\d{2})(\d{2})` extraction (the compact format). -/
def matchCompactYmd (t : Str) : Option (Nat × Nat × Nat) :=
  let run := t.take 8
  if run.length = 8 && run.all isDigit09 then
    some (digitsToNat (t.take 4), digitsToNat ((t.drop 4).take 2),
      digitsToNat ((t.drop 6).take 2))
  else none

/-- `createDateFromString` from `date.ts` (lines 139-195): try an
embedded `YYYY-MM-DD` pattern, then `YYYY/MM/DD`, then a leading
`YYYYMMDD`, then a direct `parseISO` of the trimmed text, then native
`new Date(...)` parsing.  The native parser is host-defined beyond ISO
strings and is modelled by the same ISO subset as `parseISO`. -/
def createDateFromString (s : Str) : Option DateValue :=
  if jsTrim s = [] then none
  else
    let trimmed := jsTrim s
    let step1 : Option JsDate :=
      match findYmd '-' trimmed with
      | some (y, m, d) =>
        let p := mkCivilDate (Int.ofNat y) m d
        if p.valid then some p else none
      | none => none
    match step1 with
    | some p => some ⟨p⟩
    | none =>
      let step2 : Option JsDate :=
        match findYmd '/' trimmed with
        | some (y, m, d) =>
          let p := mkCivilDate (Int.ofNat y) m d
          if p.valid then some p else none
        | none => none
      match step2 with
      | some p => some ⟨p⟩
      | none =>
        let step3 : Option JsDate :=
          match matchCompactYmd trimmed with
          | some (y, m, d) =>
            let p := mkCivilDate (Int.ofNat y) m d
            if p.valid then some p else none
          | none => none
        match step3 with
        | some p => some ⟨p⟩
        | none =>
          let direct := parseISOsub trimmed
          if direct.valid then some ⟨direct⟩
          else
            let native := parseISOsub trimmed
            if native.valid then some ⟨native⟩ else none

/-- `TOKEN_MAP` from `date.ts`, in source (insertion) order. -/
def TOKEN_MAP : List (Str × Str) :=
  [(lit "YYYY", lit "yyyy"), (lit "YY", lit "yy"),
   (lit "MM", lit "MM"), (lit "M", lit "M"),
   (lit "DD", lit "dd"), (lit "D", lit "d"),
   (lit "HH", lit "HH"), (lit "H", lit "H"),
   (lit "hh", lit "hh"), (lit "h", lit "h"),
   (lit "mm", lit "mm"), (lit "m", lit "m"),
   (lit "ss", lit "ss"), (lit "s", lit "s"),
   (lit "A", lit "a"), (lit "a", lit "a")]

/-- Stable insertion for the length-descending token sort
(`sort((a, b) => b.length - a.length)`, stable as in ECMAScript). -/
def insertTokDesc (x : Str × Str) :
    List (Str × Str) → List (Str × Str)
  | [] => [x]
  | n :: ns =>
    if x.1.length < n.1.length then n :: insertTokDesc x ns
    else x :: n :: ns

/-- Sort the token pairs by descending token length (stable). -/
def sortTokensByLenDesc (l : List (Str × Str)) : List (Str × Str) :=
  l.foldr insertTokDesc []

/-- Model of `String.prototype.replace(new RegExp(tok, 'g'), rep)` for a
literal (metacharacter-free) token: global, left-to-right,
non-overlapping replacement that does not rescan the replacement text. -/
def replaceAllLit (fuel : Nat) (s pat repl : Str) : Str :=
  match fuel with
  | 0 => s
  | fu + 1 =>
    match s with
    | [] => []
    | c :: cs =>
      if pat ≠ [] && pat.isPrefixOf s then
        repl ++ replaceAllLit fu (s.drop pat.length) pat repl
      else c :: replaceAllLit fu cs pat repl

/-- `convertFormatPattern` from `date.ts`: replace each map token,
longest first, by its date-fns equivalent. -/
def convertFormatPattern (pattern : Str) : Str :=
  (sortTokensByLenDesc TOKEN_MAP).foldl
    (fun r p => replaceAllLit (r.length + 1) r p.1 p.2) pattern

/-- Errors of the embedded evaluation pipeline; each constructor marks a
point where the source can throw. -/
inductive EvalErr
  | regexUnsupported
  | formatErr
  | invalidDate
deriving DecidableEq, Repr

/-- Left-pad a numeral with zeros to width `w`. -/
def padNum (w : Nat) (n : Nat) : Str :=
  let d := (toString n).data
  List.replicate (w - d.length) '0' ++ d

/-- Render one date-fns formatting token (a maximal run of one letter)
for a valid date.  Supported: the tokens in the range of `TOKEN_MAP`;
any other letter run makes date-fns throw a `RangeError`. -/
def renderDateToken (d : JsDate) (run : Str) : Option Str :=
  let h12 := if d.hour % 12 = 0 then 12 else d.hour % 12
  if run = lit "yyyy" then some (padNum 4 d.year.toNat)
  else if run = lit "yy" then some (padNum 2 ((d.year % 100).toNat))
  else if run = lit "MM" then some (padNum 2 d.month)
  else if run = lit "M" then some (toString d.month).data
  else if run = lit "dd" then some (padNum 2 d.day)
  else if run = lit "d" then some (toString d.day).data
  else if run = lit "HH" then some (padNum 2 d.hour)
  else if run = lit "H" then some (toString d.hour).data
  else if run = lit "hh" then some (padNum 2 h12)
  else if run = lit "h" then some (toString h12).data
  else if run = lit "mm" then some (padNum 2 d.minute)
  else if run = lit "m" then some (toString d.minute).data
  else if run = lit "ss" then some (padNum 2 d.second)
  else if run = lit "s" then some (toString d.second).data
  else if run = lit "a" then some (if d.hour < 12 then lit "AM" else lit "PM")
  else none

/-- ASCII letter test. -/
def isAsciiLetter (c : Char) : Bool :=
  (65 ≤ c.toNat && c.toNat ≤ 90) || (97 ≤ c.toNat && c.toNat ≤ 122)

/-- Render a date-fns pattern over a valid date: letter runs are tokens,
single-quoted sections are literal, other characters are literal.
Unknown tokens and unterminated quotes raise (`RangeError` in date-fns). -/
def renderPattern (fuel : Nat) (d : JsDate) (p : Str) : Except EvalErr Str :=
  match fuel with
  | 0 => .error .formatErr
  | fu + 1 =>
    match p with
    | [] => .ok []
    | c :: rest =>
      if isAsciiLetter c then
        let pr := takeRunP (fun x => x = c) (c :: rest)
        match renderDateToken d pr.1 with
        | none => .error .formatErr
        | some out =>
          (renderPattern fu d pr.2).map (fun tail => out ++ tail)
      else if c = sqChar then
        match rest with
        | q :: rest2 =>
          if q = sqChar then
            (renderPattern fu d rest2).map (fun tail => sqChar :: tail)
          else
            match findSubFrom (rest.length + 1) rest [sqChar] 0 with
            | none => .error .formatErr
            | some j =>
              (renderPattern fu d (rest.drop (j + 1))).map
                (fun tail => rest.take j ++ tail)
        | [] => .error .formatErr
      else (renderPattern fu d rest).map (fun tail => c :: tail)

/-- Model of date-fns `format(date, pattern)` (external library): throws
on an Invalid Date and on unsupported pattern tokens, renders supported
tokens from the civil fields. -/
def dateFnsFormat (d : JsDate) (pattern : Str) : Except EvalErr Str :=
  if d.valid then renderPattern (pattern.length + 1) d pattern
  else .error .invalidDate

/-- `formatDate` from `date.ts`: convert the moment-style pattern and
hand it to date-fns `format`. -/
def formatDate (d : JsDate) (pattern : Str) : Except EvalErr Str :=
  dateFnsFormat d (convertFormatPattern pattern)

/-- `DateValue.format`. -/
def DateValue.format (dv : DateValue) (pattern : Str) : Except EvalErr Str :=
  formatDate dv.date pattern

/-- `DateValue.toString()` = `date.toISOString()` (UTC model; an Invalid
Date would throw in the source, but every `DateValue` the evaluator can
construct is valid). -/
def isoString (d : JsDate) : Str :=
  padNum 4 d.year.toNat ++ lit "-" ++ padNum 2 d.month ++ lit "-" ++
    padNum 2 d.day ++ lit "T" ++ padNum 2 d.hour ++ lit ":" ++
    padNum 2 d.minute ++ lit ":" ++ padNum 2 d.second ++ lit "." ++
    padNum 3 d.ms ++ lit "Z"

/-- Strip the time of day (`startOfDay`). -/
def startOfDay (d : JsDate) : JsDate :=
  { d with hour := 0, minute := 0, second := 0, ms := 0 }

/-- `createNow` from `date.ts` with the ambient clock passed explicitly. -/
def createNow (clock : JsDate) : DateValue := ⟨clock⟩

/-- `createToday` from `date.ts` with the ambient clock passed
explicitly. -/
def createToday (clock : JsDate) : DateValue := ⟨startOfDay clock⟩

/-- Modelled from the spec: the current `date.ts` also defines a
`.date()` method that "strips time-of-day to midnight"; the revision
under `src/` predates it. -/
def DateValue.dateOnly (dv : DateValue) : DateValue := ⟨startOfDay dv.date⟩

/-- Modelled from the spec: `.time()` "renders `HH:mm:ss`"; missing from
the `date.ts` revision under `src/`. -/
def DateValue.timeStr (dv : DateValue) : Str :=
  padNum 2 dv.date.hour ++ lit ":" ++ padNum 2 dv.date.minute ++ lit ":" ++
    padNum 2 dv.date.second

/-- Day number of a civil date (Gregorian, days since 1970-01-01). -/
def civilDays (d : JsDate) : Int :=
  let y : Int := if d.month ≤ 2 then d.year - 1 else d.year
  let era : Int := (if 0 ≤ y then y else y - 399) / 400
  let yoe : Int := y - era * 400
  let mp : Int := (Int.ofNat d.month + 9) % 12
  let doy : Int := (153 * mp + 2) / 5 + Int.ofNat d.day - 1
  let doe : Int := yoe * 365 + yoe / 4 - yoe / 100 + doy
  era * 146097 + doe - 719468

/-- Modelled from the spec: `.relative()` "renders a human phrase like
'3 days ago'"; missing from the `date.ts` revision under `src/`.  The
phrase is modelled at day granularity against the ambient clock. -/
def DateValue.relativeStr (clock : JsDate) (dv : DateValue) : Str :=
  let diff := civilDays clock - civilDays dv.date
  if diff = 0 then lit "today"
  else if diff = 1 then lit "1 day ago"
  else if 0 < diff then (toString diff.toNat).data ++ lit " days ago"
  else if diff = -1 then lit "in 1 day"
  else lit "in " ++ (toString (-diff).toNat).data ++ lit " days"

/-- Modelled from the spec: `.isEmpty()` "reports parse failure
(NaN-equivalent instant)"; missing from the `date.ts` revision under
`src/`. -/
def DateValue.isEmptyB (dv : DateValue) : Bool := !dv.date.valid

/- ----------------------------------------------------------------- -/
/- Number values (spec-modelled)                                      -/
/- ----------------------------------------------------------------- -/

/-- Modelled from the spec: `src/utils/number.ts` is not under `src/`
(only its tests `number.spec.ts` and its callers are).  Per the spec,
"Number: abs ceil floor round(digits=0) toFixed(precision) isEmpty (NaN
check) plus free functions number(text) (parses; non-numeric text yields
a NaN-bearing Number, not an error), min(...), max(...)".  JavaScript
doubles are modelled as exact rationals with an explicit NaN (`none`);
infinities are outside the model.  No claim exercises numeric values. -/
structure NumberValue where
  val : Option Rat
deriving DecidableEq

/-- Model of the JavaScript `parseFloat` prefix parse: leading
whitespace, optional sign, then `digits[.digits][e[±]digits]` (or
`.digits`); trailing junk is ignored; no parsable prefix gives NaN. -/
def jsParseFloat (s : Str) : Option Rat :=
  let t := s.dropWhile isJsWs
  let (sgn, t1) : Int × Str :=
    match t with
    | '-' :: r => (-1, r)
    | '+' :: r => (1, r)
    | r => (1, r)
  let (ip, t2) := takeRunP isDigit09 t1
  let (fp, t3) :=
    match t2 with
    | '.' :: r =>
      let pr := takeRunP isDigit09 r
      (pr.1, pr.2)
    | r => ([], r)
  if ip = [] && fp = [] then none
  else
    let mant : Rat :=
      (Int.ofNat (digitsToNat (ip ++ fp)) : Rat) / ((10 : Rat) ^ fp.length)
    let ex : Int :=
      match t3 with
      | 'e' :: r | 'E' :: r =>
        let (esgn, r1) : Int × Str :=
          match r with
          | '-' :: rr => (-1, rr)
          | '+' :: rr => (1, rr)
          | rr => (1, rr)
        let (ed, _) := takeRunP isDigit09 r1
        if ed = [] then 0 else esgn * Int.ofNat (digitsToNat ed)
      | _ => 0
    some ((sgn : Rat) * mant * (10 : Rat) ^ ex)

/-- Modelled from the spec: `parseNumber(text)`. -/
def parseNumber (s : Str) : NumberValue := ⟨jsParseFloat s⟩

/-- Modelled from the spec: `min(...)` over parsed floats (`Math.min`
yields NaN if any argument is NaN; the empty case, `+Infinity` in
JavaScript, is outside the model and mapped to NaN). -/
def minValue (l : List (Option Rat)) : NumberValue :=
  if l.any (fun x => x.isNone) || l.isEmpty then ⟨none⟩
  else ⟨some ((l.filterMap id).foldl min ((l.filterMap id).headD 0))⟩

/-- Modelled from the spec: `max(...)` (dual of `minValue`). -/
def maxValue (l : List (Option Rat)) : NumberValue :=
  if l.any (fun x => x.isNone) || l.isEmpty then ⟨none⟩
  else ⟨some ((l.filterMap id).foldl max ((l.filterMap id).headD 0))⟩

/-- Modelled from the spec: `.abs()`. -/
def NumberValue.absV (n : NumberValue) : NumberValue := ⟨n.val.map (|·|)⟩

/-- Modelled from the spec: `.ceil()`. -/
def NumberValue.ceilV (n : NumberValue) : NumberValue :=
  ⟨n.val.map (fun q => (Rat.ceil q : Rat))⟩

/-- Modelled from the spec: `.floor()`. -/
def NumberValue.floorV (n : NumberValue) : NumberValue :=
  ⟨n.val.map (fun q => (Rat.floor q : Rat))⟩

/-- Modelled from the spec: `.round(digits = 0)` via
`Math.round(x * 10^d) / 10^d`, `Math.round(x) = floor(x + 1/2)`. -/
def NumberValue.roundV (n : NumberValue) (digits : Nat) : NumberValue :=
  ⟨n.val.map (fun q =>
    (Rat.floor (q * (10 : Rat) ^ digits + 1 / 2) : Rat) / (10 : Rat) ^ digits)⟩

/-- Decimal digits of a proper fraction `num / den`, at most `fuel`
digits (values reachable from the embedded operations have terminating
decimal expansions; others are truncated). -/
def fracDigits (fuel : Nat) (num den : Nat) : Str :=
  match fuel with
  | 0 => []
  | fu + 1 =>
    if num = 0 || den = 0 then []
    else
      let n10 := num * 10
      (Char.ofNat (48 + n10 / den)) :: fracDigits fu (n10 % den) den

/-- Decimal rendering of a rational (JavaScript number-to-string on the
terminating-decimal values reachable here). -/
def ratToDecimal (q : Rat) : Str :=
  let sgn : Str := if q < 0 then ['-'] else []
  let a := |q|
  let ipart := a.floor.toNat
  let fnum := (a - (ipart : Rat)).num.toNat
  let fden := (a - (ipart : Rat)).den
  let fd := fracDigits 20 fnum fden
  sgn ++ (toString ipart).data ++ (if fd = [] then [] else '.' :: fd)

/-- Modelled from the spec: `.toFixed(precision)` returns a string with
exactly `precision` fractional digits (half-up on the exact rational). -/
def NumberValue.toFixedV (n : NumberValue) (precision : Nat) : Str :=
  match n.val with
  | none => lit "NaN"
  | some q =>
    let sgn : Str := if q < 0 then ['-'] else []
    let a := |q|
    let scaled := Rat.floor (a * (10 : Rat) ^ precision + 1 / 2)
    let digits := (toString scaled.toNat).data
    let digits := List.replicate (precision + 1 - digits.length) '0' ++ digits
    let ip := digits.take (digits.length - precision)
    let fp := digits.drop (digits.length - precision)
    sgn ++ ip ++ (if precision = 0 then [] else '.' :: fp)

/-- Modelled from the spec: `.isEmpty()` (NaN check). -/
def NumberValue.isEmptyB (n : NumberValue) : Bool := n.val.isNone

/-- Modelled from the spec: number-to-string (`.toString()`). -/
def NumberValue.toStr (n : NumberValue) : Str :=
  match n.val with
  | none => lit "NaN"
  | some q => ratToDecimal q

/- ----------------------------------------------------------------- -/
/- String values (`src/utils/string.ts`)                              -/
/- ----------------------------------------------------------------- -/

/-- ASCII lower-casing (model of `String.prototype.toLowerCase`; every
comparison in the evaluator is against ASCII words). -/
def jsToLowerChar (c : Char) : Char :=
  if 65 ≤ c.toNat ∧ c.toNat ≤ 90 then Char.ofNat (c.toNat + 32) else c

/-- ASCII upper-casing (model of `String.prototype.toUpperCase`). -/
def jsToUpperChar (c : Char) : Char :=
  if 97 ≤ c.toNat ∧ c.toNat ≤ 122 then Char.ofNat (c.toNat - 32) else c

/-- `StringValue` from `src/utils/string.ts`. -/
structure StringValue where
  str : Str
deriving DecidableEq, Repr

/-- `createString` from `string.ts`. -/
def createString (s : Str) : StringValue := ⟨s⟩

/-- `StringValue.lower`. -/
def StringValue.lower (v : StringValue) : StringValue :=
  ⟨v.str.map jsToLowerChar⟩

/-- `StringValue.upper`. -/
def StringValue.upper (v : StringValue) : StringValue :=
  ⟨v.str.map jsToUpperChar⟩

/-- `StringValue.trim`. -/
def StringValue.trimV (v : StringValue) : StringValue := ⟨jsTrim v.str⟩

/-- ECMAScript regular-expression metacharacters. -/
def regexMetaChar (c : Char) : Bool :=
  c.toNat = 92 || c.toNat = 94 || c.toNat = 36 || c.toNat = 46 ||
  c.toNat = 42 || c.toNat = 43 || c.toNat = 63 || c.toNat = 40 ||
  c.toNat = 41 || c.toNat = 91 || c.toNat = 93 || c.toNat = 123 ||
  c.toNat = 125 || c.toNat = 124

/-- Expansion of `$`-sequences in a `String.prototype.replace`
replacement string: `$$`, `$&` (the match), the backtick form (portion
before the match) and the quote form (portion after); with no capture
groups, `$n` stays literal. -/
def expandRepl (matched pre post : Str) (fuel : Nat) (s : Str) : Str :=
  match fuel with
  | 0 => s
  | fu + 1 =>
    match s with
    | [] => []
    | c :: rest =>
      if c = '$' then
        match rest with
        | d :: rest2 =>
          if d = '$' then '$' :: expandRepl matched pre post fu rest2
          else if d = '&' then matched ++ expandRepl matched pre post fu rest2
          else if d = btChar then pre ++ expandRepl matched pre post fu rest2
          else if d = sqChar then post ++ expandRepl matched pre post fu rest2
          else c :: expandRepl matched pre post fu rest
        | [] => [c]
      else c :: expandRepl matched pre post fu rest

/-- Global literal replacement with `$`-expansion (non-empty pattern):
leftmost, non-overlapping, resuming after each match. -/
def globReplAux (fuel : Nat) (pre s pat repl : Str) : Str :=
  match fuel with
  | 0 => s
  | fu + 1 =>
    if pat ≠ [] && pat.isPrefixOf s then
      let after := s.drop pat.length
      expandRepl pat pre after (repl.length + 1) repl ++ globReplAux fu (pre ++ pat) after pat repl
    else
      match s with
      | [] => []
      | c :: cs => c :: globReplAux fu (pre ++ [c]) cs pat repl

/-- Empty-pattern global replacement: the empty regex matches at every
position, so the (expanded) replacement is interleaved at every index. -/
def globReplEmpty (pre s repl : Str) : Str :=
  match s with
  | [] => expandRepl [] pre [] (repl.length + 1) repl
  | c :: cs =>
    expandRepl [] pre s (repl.length + 1) repl ++
      c :: globReplEmpty (pre ++ [c]) cs repl

/-- Model of `str.replace(new RegExp(pat, 'g'), repl)` for literal
patterns. -/
def jsGlobalReplace (s pat repl : Str) : Str :=
  if pat = [] then globReplEmpty [] s repl
  else globReplAux (s.length + 1) [] s pat repl

/-- `StringValue.replace(pattern, replacement)` from `string.ts`:
`new RegExp(pattern, 'g')` compilation followed by replacement.  The
embedding supports metacharacter-free (literal) patterns exactly; a
pattern containing a regex metacharacter is mapped to the error case
(this is exact for ill-formed patterns such as a lone `(`, which throw a
`SyntaxError` in the source, and conservative for well-formed regex
patterns, which no claim exercises). -/
def StringValue.replaceV (v : StringValue) (pat repl : Str) :
    Except EvalErr StringValue :=
  if pat.any regexMetaChar then .error .regexUnsupported
  else .ok ⟨jsGlobalReplace v.str pat repl⟩

/-- `\w` (word characters). -/
def isWordChar (c : Char) : Bool :=
  isAsciiLetter c || isDigit09 c || c = '_'

/-- `StringValue.title`: the `/\w\S*/g` replacement — each maximal
non-space run starting at a word character gets its first character
upper-cased and the rest lower-cased. -/
def titleScan (fuel : Nat) (s : Str) : Str :=
  match fuel with
  | 0 => s
  | fu + 1 =>
    match s with
    | [] => []
    | c :: cs =>
      if isWordChar c then
        let pr := takeRunP (fun x => !isJsWs x) cs
        jsToUpperChar c :: pr.1.map jsToLowerChar ++ titleScan fu pr.2
      else c :: titleScan fu cs

/-- `StringValue.title`. -/
def StringValue.titleV (v : StringValue) : StringValue :=
  ⟨titleScan (v.str.length + 1) v.str⟩

/-- Model of `String.prototype.slice(start, end?)` with negative
indexing. -/
def jsSlice (s : Str) (start : Int) (stop : Option Int) : Str :=
  let len : Int := Int.ofNat s.length
  let norm := fun (i : Int) =>
    if i < 0 then (max (len + i) 0).toNat else (min i len).toNat
  let a := norm start
  let b := norm (stop.getD len)
  (s.take b).drop a

/-- `StringValue.slice`. -/
def StringValue.sliceV (v : StringValue) (start : Int) (stop : Option Int) :
    StringValue :=
  ⟨jsSlice v.str start stop⟩

/-- `StringValue.repeat`: `Math.max(0, Math.floor(count))` repetitions. -/
def StringValue.repeatV (v : StringValue) (count : Int) : StringValue :=
  ⟨List.flatten (List.replicate count.toNat v.str)⟩

/-- `String.prototype.includes`. -/
def strIncludes (s sub : Str) : Bool :=
  (findSubFrom (s.length + 1) s sub 0).isSome

/-- `StringValue.startsWith`. -/
def StringValue.startsWithV (v : StringValue) (q : Str) : Bool :=
  q.isPrefixOf v.str

/-- `StringValue.endsWith`. -/
def StringValue.endsWithV (v : StringValue) (q : Str) : Bool :=
  q.reverse.isPrefixOf v.str.reverse

/-- `StringValue.contains`. -/
def StringValue.containsV (v : StringValue) (q : Str) : Bool :=
  strIncludes v.str q

/-- `StringValue.containsAll`. -/
def StringValue.containsAllV (v : StringValue) (qs : List Str) : Bool :=
  qs.all (fun q => strIncludes v.str q)

/-- `StringValue.containsAny`. -/
def StringValue.containsAnyV (v : StringValue) (qs : List Str) : Bool :=
  qs.any (fun q => strIncludes v.str q)

/-- `StringValue.isEmpty`. -/
def StringValue.isEmptyB (v : StringValue) : Bool := v.str.isEmpty

/-- `StringValue.reverse`. -/
def StringValue.reverseV (v : StringValue) : StringValue := ⟨v.str.reverse⟩

/-- Split on a non-empty separator, leftmost, non-overlapping. -/
def splitOnSub (fuel : Nat) (s sep : Str) (acc : Str) : List Str :=
  match fuel with
  | 0 => [acc.reverse]
  | fu + 1 =>
    if sep ≠ [] && sep.isPrefixOf s then
      acc.reverse :: splitOnSub fu (s.drop sep.length) sep []
    else
      match s with
      | [] => [acc.reverse]
      | c :: cs => splitOnSub fu cs sep (c :: acc)

/-- `ToUint32` of the ECMAScript `split` limit. -/
def toUint32 (n : Int) : Nat :=
  (((n % 4294967296) + 4294967296) % 4294967296).toNat

/-- Model of `String.prototype.split(sep, limit?)`: an empty separator
splits into characters; the limit truncates the result list. -/
def jsSplit (s sep : Str) (limit : Option Int) : List Str :=
  let parts :=
    if sep = [] then s.map (fun c => [c])
    else splitOnSub (s.length + 1) s sep []
  match limit with
  | none => parts
  | some n => parts.take (toUint32 n)

/-- `StringValue.split`. -/
def StringValue.splitV (v : StringValue) (sep : Str) (limit : Option Int) :
    List Str :=
  jsSplit v.str sep limit

/- ----------------------------------------------------------------- -/
/- Expression evaluator (`src/app/services/function-evaluator.ts`,    -/
/- embedded in `expander.service.ts` lines 301-935)                   -/
/- ----------------------------------------------------------------- -/

/-- Token kinds of the expression tokenizer. -/
inductive TokType
  | ident
  | dot
  | lparen
  | rparen
  | strLit
  | numLit
  | comma
  | eof
  | unknown
deriving DecidableEq, Repr

/-- A token. -/
structure Tok where
  ttype : TokType
  value : Str
deriving DecidableEq, Repr

/-- The string-literal lexer loop of `tokenize`: consume until the
matching quote, mapping `\n`/`\t` escapes, keeping other escaped
characters, and keeping a trailing lone backslash; an unterminated
literal consumes to the end of input. -/
def lexStrLit (fuel : Nat) (q : Char) (s : Str) : Str × Str :=
  match fuel with
  | 0 => ([], s)
  | fu + 1 =>
    match s with
    | [] => ([], [])
    | c :: cs =>
      if c = q then ([], cs)
      else if c = bsChar ∧ cs ≠ [] then
        match cs with
        | n :: cs2 =>
          let mapped := if n = 'n' then '\n' else if n = 't' then '\t' else n
          let r := lexStrLit fu q cs2
          (mapped :: r.1, r.2)
        | [] => ([], [])
      else
        let r := lexStrLit fu q cs
        (c :: r.1, r.2)

/-- The main loop of `tokenize` (expander.service.ts lines 363-475). -/
def tokenizeAux (fuel : Nat) (s : Str) : List Tok :=
  match fuel with
  | 0 => []
  | fu + 1 =>
    match s with
    | [] => []
    | c :: cs =>
      if isJsWs c then tokenizeAux fu cs
      else if c = '.' then ⟨.dot, lit "."⟩ :: tokenizeAux fu cs
      else if c = '(' then ⟨.lparen, lit "("⟩ :: tokenizeAux fu cs
      else if c = ')' then ⟨.rparen, lit ")"⟩ :: tokenizeAux fu cs
      else if c = ',' then ⟨.comma, lit ","⟩ :: tokenizeAux fu cs
      else if c = sqChar ∨ c = dqChar then
        let r := lexStrLit (cs.length + 1) c cs
        ⟨.strLit, r.1⟩ :: tokenizeAux fu r.2
      else if isDigit09 c ∨ (c = '-' ∧ (cs.head?.map isDigit09).getD false) then
        if c = '-' then
          let pr := takeRunP (fun x => isDigit09 x || x = '.') cs
          ⟨.numLit, '-' :: pr.1⟩ :: tokenizeAux fu pr.2
        else
          let pr := takeRunP (fun x => isDigit09 x || x = '.') (c :: cs)
          ⟨.numLit, pr.1⟩ :: tokenizeAux fu pr.2
      else if isAsciiLetter c ∨ c = '_' then
        let pr := takeRunP isWordChar (c :: cs)
        ⟨.ident, pr.1⟩ :: tokenizeAux fu pr.2
      else ⟨.unknown, [c]⟩ :: tokenizeAux fu cs

/-- `tokenize` from the evaluator: token stream plus the final EOF. -/
def tokenize (s : Str) : List Tok :=
  tokenizeAux (s.length + 1) s ++ [⟨.eof, []⟩]

/-- `ExpressionElement` of the evaluator. -/
inductive ExprElem
  | func (name : Str) (args : List Str)
  | propAcc (name : Str)
  | fileField (field : Str)
deriving DecidableEq, Repr

/-- `FileFields` from `src/app/types/evaluation-context.ts`; the
evaluation context is modelled directly by its extracted fields (the
`getFileFields` projection of the host `TFile`, whose timestamps are
always valid dates). -/
structure FileFields where
  name : Str
  path : Str
  folder : Str
  ext : Str
  ctime : JsDate
  mtime : JsDate
deriving DecidableEq, Repr

/-- `resolveFileFieldValue`: a file field as an argument string
(timestamps via `toISOString`). -/
def resolveFileFieldValue (f : FileFields) (field : Str) : Str :=
  if field = lit "name" then f.name
  else if field = lit "path" then f.path
  else if field = lit "folder" then f.folder
  else if field = lit "ext" then f.ext
  else if field = lit "ctime" then isoString f.ctime
  else if field = lit "mtime" then isoString f.mtime
  else []

/-- The argument-list loop of `parseExpression` (lines 513-568): string
and number literals are collected, `file.field` arguments are resolved
immediately against the context (and silently dropped without one),
commas are skipped, and any other token is skipped.  The returned token
list is the remainder after the loop exits (on `)` or end of input),
reproducing the source's index arithmetic including the fall-through
cases of a `file` identifier not followed by `.` + identifier. -/
def parseArgs (fuel : Nat) (ctx : Option FileFields) (toks : List Tok)
    (args : List Str) : List Str × List Tok :=
  match fuel with
  | 0 => (args, toks)
  | fu + 1 =>
    match toks with
    | [] => (args, [])
    | t :: rest =>
      if t.ttype = .rparen then (args, rest)
      else if t.ttype = .strLit ∨ t.ttype = .numLit then
        let args1 := args ++ [t.value]
        match rest with
        | c :: r2 =>
          if c.ttype = .comma then parseArgs fu ctx r2 args1
          else parseArgs fu ctx rest args1
        | [] => parseArgs fu ctx [] args1
      else if t.ttype = .ident ∧ t.value = lit "file" then
        match rest with
        | d :: r2 =>
          if d.ttype = .dot then
            match r2 with
            | f :: r3 =>
              if f.ttype = .ident then
                let args1 :=
                  match ctx with
                  | some fl => args ++ [resolveFileFieldValue fl f.value]
                  | none => args
                match r3 with
                | c :: r4 =>
                  if c.ttype = .comma then parseArgs fu ctx r4 args1
                  else parseArgs fu ctx r3 args1
                | [] => parseArgs fu ctx [] args1
              else parseArgs fu ctx r3 args
            | [] => parseArgs fu ctx [] args
          else parseArgs fu ctx r2 args
        | [] => parseArgs fu ctx [] args
      else if t.ttype = .comma then parseArgs fu ctx rest args
      else parseArgs fu ctx rest args

/-- The main loop of `parseExpression` (lines 489-591): dots are
structural separators, an identifier followed by `(` opens a function
call, `file` followed by `.` and an identifier is a file-field access,
any other identifier is a property access, and all other tokens are
skipped. -/
def parseExprAux (fuel : Nat) (ctx : Option FileFields) (toks : List Tok)
    (acc : List ExprElem) : List ExprElem :=
  match fuel with
  | 0 => acc
  | fu + 1 =>
    match toks with
    | [] => acc
    | t :: rest =>
      if t.ttype = .eof then acc
      else if t.ttype = .dot then parseExprAux fu ctx rest acc
      else if t.ttype = .ident then
        match rest with
        | nt :: r2 =>
          if nt.ttype = .lparen then
            let pr := parseArgs (r2.length + 1) ctx r2 []
            parseExprAux fu ctx pr.2 (acc ++ [.func t.value pr.1])
          else if t.value = lit "file" then
            if nt.ttype = .dot then
              match r2 with
              | ft :: r4 =>
                if ft.ttype = .ident then
                  parseExprAux fu ctx r4 (acc ++ [.fileField ft.value])
                else parseExprAux fu ctx r2 acc
              | [] => acc
            else parseExprAux fu ctx rest acc
          else parseExprAux fu ctx rest (acc ++ [.propAcc t.value])
        | [] =>
          if t.value = lit "file" then acc else acc ++ [.propAcc t.value]
      else parseExprAux fu ctx rest acc

/-- `parseExpression` from the evaluator. -/
def parseExpression (toks : List Tok) (ctx : Option FileFields) :
    List ExprElem :=
  parseExprAux (toks.length + 1) ctx toks []

/-- `EvaluationResult` of the evaluator:
`DateValue | StringValue | NumberValue | string | boolean | string[]`. -/
inductive EvalResult
  | dateR (d : DateValue)
  | strR (s : StringValue)
  | numR (n : NumberValue)
  | rawR (s : Str)
  | boolR (b : Bool)
  | listR (l : List Str)
deriving DecidableEq

/-- `resolveFileField`: a file field as a typed initial value. -/
def resolveFileField (f : FileFields) (field : Str) : EvalResult :=
  if field = lit "name" then .strR (createString f.name)
  else if field = lit "path" then .strR (createString f.path)
  else if field = lit "folder" then .strR (createString f.folder)
  else if field = lit "ext" then .strR (createString f.ext)
  else if field = lit "ctime" then .dateR ⟨f.ctime⟩
  else if field = lit "mtime" then .dateR ⟨f.mtime⟩
  else .strR (createString [])

/-- `evaluateTruthiness` (lines 767-776): falsy exactly for the trimmed,
lower-cased forms `''`, `'false'`, `'0'`, `'null'`, `'undefined'`. -/
def evaluateTruthiness (v : Str) : Bool :=
  let t := (jsTrim v).map jsToLowerChar
  if t = [] ∨ t = lit "false" ∨ t = lit "0" ∨ t = lit "null" ∨
      t = lit "undefined" then false
  else true

/-- `escapeHTML` (lines 781-788): five sequential global replacements,
ampersand first. -/
def escapeHTML (s : Str) : Str :=
  let r1 := replaceAllLit (s.length + 1) s (lit "&") (lit "&amp;")
  let r2 := replaceAllLit (r1.length + 1) r1 (lit "<") (lit "&lt;")
  let r3 := replaceAllLit (r2.length + 1) r2 (lit ">") (lit "&gt;")
  let r4 := replaceAllLit (r3.length + 1) r3 [dqChar] (lit "&quot;")
  replaceAllLit (r4.length + 1) r4 [sqChar] (lit "&#039;")

/-- Model of `parseInt(s, 10)`: leading whitespace, optional sign,
leading digit run; no digits gives NaN (`none`). -/
def jsParseInt (s : Str) : Option Int :=
  let t := s.dropWhile isJsWs
  let sp : Int × Str :=
    match t with
    | '-' :: r => (-1, r)
    | '+' :: r => (1, r)
    | r => (1, r)
  let pr := takeRunP isDigit09 sp.2
  if pr.1 = [] then none else some (sp.1 * Int.ofNat (digitsToNat pr.1))

/-- `applyStringMethod` (lines 790-840). -/
def applyStringMethod (v : StringValue) (name : Str) (args : List Str) :
    Except EvalErr EvalResult :=
  if name = lit "lower" then .ok (.strR v.lower)
  else if name = lit "upper" then .ok (.strR v.upper)
  else if name = lit "trim" then .ok (.strR v.trimV)
  else if name = lit "replace" then
    (v.replaceV (args.getD 0 []) (args.getD 1 [])).map .strR
  else if name = lit "title" then .ok (.strR v.titleV)
  else if name = lit "slice" then
    let start := (jsParseInt (args.getD 0 (lit "0"))).getD 0
    let stop : Option Int :=
      match args.get? 1 with
      | some a => if a = [] then none else some ((jsParseInt a).getD 0)
      | none => none
    .ok (.strR (v.sliceV start stop))
  else if name = lit "repeat" then
    let count := (jsParseInt (args.getD 0 (lit "1"))).getD 0
    .ok (.strR (v.repeatV count))
  else if name = lit "startsWith" then
    .ok (.boolR (v.startsWithV (args.getD 0 [])))
  else if name = lit "endsWith" then
    .ok (.boolR (v.endsWithV (args.getD 0 [])))
  else if name = lit "contains" then
    .ok (.boolR (v.containsV (args.getD 0 [])))
  else if name = lit "containsAll" then .ok (.boolR (v.containsAllV args))
  else if name = lit "containsAny" then .ok (.boolR (v.containsAnyV args))
  else if name = lit "isEmpty" then .ok (.boolR v.isEmptyB)
  else if name = lit "reverse" then .ok (.strR v.reverseV)
  else if name = lit "split" then
    let sep := args.getD 0 []
    let limit : Option Int :=
      match args.get? 1 with
      | some a => if a = [] then none else some ((jsParseInt a).getD 0)
      | none => none
    .ok (.listR (v.splitV sep limit))
  else if name = lit "format" then .ok (.strR v)
  else .ok (.strR v)

/-- `applyDateMethod` (lines 845-861); unknown methods fall back to the
string method table on the ISO string. -/
def applyDateMethod (clock : JsDate) (v : DateValue) (name : Str)
    (args : List Str) : Except EvalErr EvalResult :=
  if name = lit "format" then
    (v.format (args.getD 0 (lit "YYYY-MM-DD"))).map .rawR
  else if name = lit "date" then .ok (.dateR v.dateOnly)
  else if name = lit "time" then .ok (.rawR v.timeStr)
  else if name = lit "relative" then .ok (.rawR (v.relativeStr clock))
  else if name = lit "isEmpty" then .ok (.boolR v.isEmptyB)
  else applyStringMethod (createString (isoString v.date)) name args

/-- `applyNumberMethod` (lines 866-888); unknown methods fall back to the
string method table on the rendered number. -/
def applyNumberMethod (v : NumberValue) (name : Str) (args : List Str) :
    Except EvalErr EvalResult :=
  if name = lit "abs" then .ok (.numR v.absV)
  else if name = lit "ceil" then .ok (.numR v.ceilV)
  else if name = lit "floor" then .ok (.numR v.floorV)
  else if name = lit "round" then
    let digits : Int :=
      match args.get? 0 with
      | some a => if a = [] then 0 else (jsParseInt a).getD 0
      | none => 0
    .ok (.numR (v.roundV digits.toNat))
  else if name = lit "toFixed" then
    let precision := (jsParseInt (args.getD 0 (lit "0"))).getD 0
    .ok (.rawR (v.toFixedV precision.toNat))
  else if name = lit "isEmpty" then .ok (.boolR v.isEmptyB)
  else applyStringMethod (createString v.toStr) name args

/-- `evaluateInitialFunction` (lines 706-761), with the ambient clock
passed explicitly for `now`/`today`. -/
def evaluateInitialFunction (clock : JsDate) (name : Str) (args : List Str) :
    Except EvalErr EvalResult :=
  if name = lit "now" then .ok (.dateR (createNow clock))
  else if name = lit "today" then .ok (.dateR (createToday clock))
  else if name = lit "date" then
    match createDateFromString (args.getD 0 []) with
    | some dv => .ok (.dateR dv)
    | none => .ok (.strR (createString []))
  else if name = lit "upper" then
    .ok (.strR (createString (args.getD 0 [])).upper)
  else if name = lit "lower" then
    .ok (.strR (createString (args.getD 0 [])).lower)
  else if name = lit "trim" then
    .ok (.strR (createString (args.getD 0 [])).trimV)
  else if name = lit "replace" then
    ((createString (args.getD 0 [])).replaceV (args.getD 1 [])
        (args.getD 2 [])).map .strR
  else if name = lit "title" then
    .ok (.strR (createString (args.getD 0 [])).titleV)
  else if name = lit "number" then
    .ok (.numR (parseNumber (args.getD 0 (lit "0"))))
  else if name = lit "min" then .ok (.numR (minValue (args.map jsParseFloat)))
  else if name = lit "max" then .ok (.numR (maxValue (args.map jsParseFloat)))
  else if name = lit "if" then
    let condition := args.getD 0 []
    .ok (.strR (createString
      (if evaluateTruthiness condition then args.getD 1 []
       else args.getD 2 [])))
  else if name = lit "escapeHTML" then
    .ok (.strR (createString (escapeHTML (args.getD 0 []))))
  else .ok (.strR (createString []))

/-- One step of the chain fold in `evaluateExpression` (lines 653-673):
dispatch by the current variant, with plain strings re-wrapped and
booleans and lists left unchanged. -/
def applyChainElem (clock : JsDate) (r : EvalResult) (e : ExprElem) :
    Except EvalErr EvalResult :=
  match e with
  | .fileField _ => .ok r
  | .func name args =>
    match r with
    | .dateR d => applyDateMethod clock d name args
    | .numR n => applyNumberMethod n name args
    | .strR s => applyStringMethod s name args
    | .rawR s => applyStringMethod (createString s) name args
    | .boolR _ => .ok r
    | .listR _ => .ok r
  | .propAcc name =>
    match r with
    | .dateR d => applyDateMethod clock d name []
    | .numR n => applyNumberMethod n name []
    | .strR s => applyStringMethod s name []
    | .rawR s => applyStringMethod (createString s) name []
    | .boolR _ => .ok r
    | .listR _ => .ok r

/-- `evaluateExpression` (lines 623-676): the first element produces the
initial typed value (empty chain and context-less file fields produce the
empty string, as does an initial property access), the rest are folded
left to right. -/
def evaluateExpression (clock : JsDate) (elements : List ExprElem)
    (ctx : Option FileFields) : Except EvalErr EvalResult :=
  match elements with
  | [] => .ok (.rawR [])
  | first :: rest =>
    match first with
    | .fileField f =>
      match ctx with
      | none => .ok (.rawR [])
      | some fl => rest.foldlM (applyChainElem clock) (resolveFileField fl f)
    | .func n a =>
      (evaluateInitialFunction clock n a).bind
        (fun r0 => rest.foldlM (applyChainElem clock) r0)
    | .propAcc _ => .ok (.rawR [])

/-- `resultToString` (lines 924-932). -/
def resultToString : EvalResult → Str
  | .boolR b => if b then lit "true" else lit "false"
  | .listR l => List.intercalate (lit ", ") l
  | .dateR d => isoString d.date
  | .strR s => s.str
  | .rawR s => s
  | .numR n => n.toStr

/-- `isDynamicExpression` (lines 893-895). -/
def isDynamicExpression (v : Str) : Bool :=
  (v.contains '(' && v.contains ')') || (lit "file.").isPrefixOf v

/-- The `try` block of `evaluateValue`: tokenize, parse, evaluate,
stringify.  An `Except.error` marks an input on which the source throws
internally. -/
def evalPipeline (clock : JsDate) (value : Str) (ctx : Option FileFields) :
    Except EvalErr Str :=
  (evaluateExpression clock (parseExpression (tokenize value) ctx) ctx).map
    resultToString

/-- `evaluateValue` (lines 904-919): static values are returned as-is;
dynamic expressions run the pipeline under a catch-all that returns the
original expression text on any internal exception. -/
def evaluateValue (clock : JsDate) (value : Str) (ctx : Option FileFields) :
    Str :=
  if ¬ isDynamicExpression value then value
  else
    match evalPipeline clock value ctx with
    | .ok s => s
    | .error _ => value

/- ----------------------------------------------------------------- -/
/- Shared concrete objects for the claims                             -/
/- ----------------------------------------------------------------- -/

/-- A fixed ambient clock (2024-06-20 10:30:00 UTC). -/
def clock0 : JsDate :=
  { valid := true, year := 2024, month := 6, day := 20, hour := 10,
    minute := 30, second := 0, ms := 0 }

/-- Resolver mapping `foo` to `bar`. -/
def fooBarResolver : Str → Option Str :=
  fun k => if k = lit "foo" then some (lit "bar") else none

/-- The expression text `if('', 'yes', 'no')`. -/
def ifEmptyExpr : Str :=
  lit "if(" ++ [sqChar, sqChar] ++ lit ", " ++ [sqChar] ++ lit "yes" ++
    [sqChar] ++ lit ", " ++ [sqChar] ++ lit "no" ++ [sqChar] ++ lit ")"

/-- The expression text `if('hello', 'yes', 'no')`. -/
def ifHelloExpr : Str :=
  lit "if(" ++ [sqChar] ++ lit "hello" ++ [sqChar] ++ lit ", " ++ [sqChar] ++
    lit "yes" ++ [sqChar] ++ lit ", " ++ [sqChar] ++ lit "no" ++ [sqChar] ++
    lit ")"

/-- The expression text `replace('abc', '(', 'x')` (its second argument
is an ill-formed regular expression, so the source pipeline throws a
`SyntaxError` inside `new RegExp`). -/
def replaceBadRegexExpr : Str :=
  lit "replace(" ++ [sqChar] ++ lit "abc" ++ [sqChar] ++ lit ", " ++
    [sqChar] ++ lit "(" ++ [sqChar] ++ lit ", " ++ [sqChar] ++ lit "x" ++
    [sqChar] ++ lit ")"

/-- Decidable equality for `Except` results (not provided by core). -/
instance {e a : Type} [DecidableEq e] [DecidableEq a] :
    DecidableEq (Except e a) := fun x y =>
  match x, y with
  | .ok u, .ok v =>
    if h : u = v then isTrue (by rw [h])
    else isFalse (fun hh => h (Except.ok.inj hh))
  | .error u, .error v =>
    if h : u = v then isTrue (by rw [h])
    else isFalse (fun hh => h (Except.error.inj hh))
  | .ok _, .error _ => isFalse (fun hh => Except.noConfusion hh)
  | .error _, .ok _ => isFalse (fun hh => Except.noConfusion hh)

/- ----------------------------------------------------------------- -/
/- C7                                                                 -/
/- ----------------------------------------------------------------- -/

/-- C7: parsing `"2024-06-20"` and formatting the result with pattern
`"YYYY-MM-DD"` returns exactly `"2024-06-20"`, and the pattern
conversion substitutes `MM` as a whole token (the converted pattern is
`yyyy-MM-dd`, and `MM` alone converts to `MM`, never to two partial `M`
substitutions). -/
theorem c7_date_format_roundtrip :
    (createDateFromString (lit "2024-06-20")).map
        (fun dv => formatDate dv.date (lit "YYYY-MM-DD")) =
      some (Except.ok (lit "2024-06-20")) ∧
    convertFormatPattern (lit "YYYY-MM-DD") = lit "yyyy-MM-dd" ∧
    convertFormatPattern (lit "MM") = lit "MM" := by
  decide

/- ----------------------------------------------------------------- -/
/- C3                                                                 -/
/- ----------------------------------------------------------------- -/

/-- C3 (failing input): the scanner regexes of `regex.ts` restrict keys
to `[a-z0-9]+(-[a-z0-9]+)*`, so a `prop.`-prefixed key is matched by
neither `findExpansions` nor `findIncompleteExpansions`, although a
kebab-case key in the same position is; this contradicts the claim (and
the repository's own `docs/usage.md`). -/
theorem c3_prop_key_markers_not_matched :
    findExpansions (lit "<!-- expand: prop.updated -->2024<!---->") = [] ∧
    findIncompleteExpansions (lit "<!-- expand: prop.updated -->") = [] ∧
    (findExpansions (lit "<!-- expand: foo -->2024<!---->")).map
        (fun m => m.key) = [lit "foo"] ∧
    (findIncompleteExpansions (lit "<!-- expand: foo -->")).map
        (fun m => m.key) = [lit "foo"] := by
  decide

/- ----------------------------------------------------------------- -/
/- C5                                                                 -/
/- ----------------------------------------------------------------- -/

/-- Resolver mapping the property key `prop.updated` to `2024-06-20`. -/
def propUpdatedResolver : Str → Option Str :=
  fun k => if k = lit "prop.updated" then some (lit "2024-06-20") else none

/-- C5 (failing input): because the scanner cannot match `prop.` keys,
processing a document whose only marker is `<!-- expand: prop.updated -->`
produces no property updates and no content change at all, so no header
is synthesized — although `updateFrontmatterProperty` itself would
produce exactly the header the claim describes if it were reached. -/
theorem c5_prop_marker_produces_no_update :
    replaceExpansions (lit "<!-- expand: prop.updated -->\nbody") .all
        propUpdatedResolver =
      { newContent := none, unknownKeys := [], replacementsCount := 0,
        propertyUpdates := [] } ∧
    updateFrontmatterProperty (lit "body") (lit "updated")
        (lit "2024-06-20") =
      lit "---\nupdated: 2024-06-20\n---\nbody" := by
  decide

/- ----------------------------------------------------------------- -/
/- C2                                                                 -/
/- ----------------------------------------------------------------- -/

/-- Stable resolver for the C2 failing input. -/
def c2Resolver : Str → Option Str :=
  fun k =>
    if k = lit "f" then some (lit "F")
    else if k = lit "b" then some (lit "Q") else none

/-- The C2 failing document: a populated (hence frozen) `once` pair whose
inner text is itself an unpaired opening marker. -/
def c2Doc : Str := lit "<!-- expand-once: f --><!-- expand: b --><!---->"

/-- Output of the first `all`-mode pass over `c2Doc`. -/
def c2Pass1 : Str :=
  lit "<!-- expand-once: f --><!-- expand: b -->Q<!----><!---->"

/-- Output of the second `all`-mode pass (a further closing marker is
inserted after the `Q`). -/
def c2Pass2 : Str :=
  lit "<!-- expand-once: f --><!-- expand: b -->Q<!----><!----><!---->"

/-- C2 (failing input): with the stable resolver `f ↦ F`, `b ↦ Q`, the
second `all`-mode pass over the first pass's output returns a non-null
`newContent` again — the opening marker nested inside the frozen `once`
span is re-detected as incomplete on every pass and another closing
marker is inserted each time, so the document grows without bound
instead of reaching a fixed point. -/
theorem c2_second_pass_changes :
    (replaceExpansions c2Doc .all c2Resolver).newContent = some c2Pass1 ∧
    (replaceExpansions c2Pass1 .all c2Resolver).newContent = some c2Pass2 := by
  decide

/- ----------------------------------------------------------------- -/
/- C4                                                                 -/
/- ----------------------------------------------------------------- -/

/-- C4: completing an incomplete non-property marker whose key resolves
to `v`, with a mode neither excluded by the processing scope nor
`once-and-eject`: if the text after the opening marker already starts
with `v`, only the closing marker is inserted right after that existing
occurrence (no duplication of `v`); otherwise `v` followed by the
closing marker is inserted directly after the opening marker.  In
particular `"<!-- expand: foo -->bar"` with `foo ↦ "bar"` yields
`"<!-- expand: foo -->bar<!---->"`. -/
theorem c4_incomplete_completion :
    (∀ (mode : ProcessingMode) (resolver : Str → Option Str)
       (st : IncState) (inc : IncompleteExpansion) (v : Str),
       ¬ (mode = .auto ∧ inc.updateMode ≠ .auto) →
       resolver inc.key = some v →
       isPropertyKey inc.key = false →
       inc.updateMode ≠ .onceAndEject →
       processIncomplete mode resolver st inc =
         (if v.isPrefixOf (st.content.drop inc.endOffset) then
           { st with
             content :=
               insertAt st.content (inc.endOffset + v.length) buildCloseMarker
             count := st.count + 1 }
          else
           { st with
             content := insertAt st.content inc.endOffset (v ++ buildCloseMarker)
             count := st.count + 1 })) ∧
    replaceExpansions (lit "<!-- expand: foo -->bar") .all fooBarResolver =
      { newContent := some (lit "<!-- expand: foo -->bar<!---->"),
        unknownKeys := [], replacementsCount := 1, propertyUpdates := [] } := by
  constructor
  · intro mode resolver st inc v hmode hres hprop hoae
    unfold processIncomplete
    rw [if_neg hmode, hres]
    simp only [hprop, Bool.false_eq_true, if_false, if_neg hoae]
  · decide

/-- Witness for C4's general part at a concrete incomplete marker. -/
theorem c4_incomplete_completion_witness :
    processIncomplete .all fooBarResolver
        { content := lit "<!-- expand: foo -->bar", unknownKeys := [],
          propertyUpdates := [], count := 0 }
        { key := lit "foo", startOffset := 0, endOffset := 20,
          openMarker := lit "<!-- expand: foo -->", updateMode := .auto } =
      { content := lit "<!-- expand: foo -->bar<!---->", unknownKeys := [],
        propertyUpdates := [], count := 1 } := by
  have h := c4_incomplete_completion.1 .all fooBarResolver
    { content := lit "<!-- expand: foo -->bar", unknownKeys := [],
      propertyUpdates := [], count := 0 }
    { key := lit "foo", startOffset := 0, endOffset := 20,
      openMarker := lit "<!-- expand: foo -->", updateMode := .auto }
    (lit "bar") (by decide) (by decide) (by decide) (by decide)
  exact h.trans (by decide)

/- ----------------------------------------------------------------- -/
/- C6                                                                 -/
/- ----------------------------------------------------------------- -/

/-- C6: a complete match in mode `once` or `once-and-eject` whose inner
text is not empty/whitespace-only is left entirely unchanged by the
match-processing step (content, counters, reported keys and property
updates), in both `auto` and `all` processing modes. -/
theorem c6_populated_once_frozen (mode : ProcessingMode)
    (resolver : Str → Option Str) (st : MatchState) (m : ExpanderMatch)
    (hmode : m.updateMode = .once ∨ m.updateMode = .onceAndEject)
    (hval : jsTrim m.currentValue ≠ []) :
    processMatch mode resolver st m = st := by
  unfold processMatch
  split
  · rfl
  · rw [if_pos ⟨hmode, hval⟩]

/-- Witness for C6 at a populated `once` match, in `all` mode with a
resolver that would rewrite it if it were not frozen. -/
theorem c6_populated_once_frozen_witness :
    processMatch .all (fun _ => some (lit "other"))
        { content := lit "<!-- expand-once: k -->x<!---->", unknownKeys := [],
          propertyUpdates := [], count := 0, hasChanges := false }
        { key := lit "k", currentValue := lit "x", startOffset := 0,
          endOffset := 31, fullMatch := lit "<!-- expand-once: k -->x<!---->",
          updateMode := .once, openMarker := lit "<!-- expand-once: k -->",
          closeMarker := lit "<!---->" } =
      { content := lit "<!-- expand-once: k -->x<!---->", unknownKeys := [],
        propertyUpdates := [], count := 0, hasChanges := false } :=
  c6_populated_once_frozen .all (fun _ => some (lit "other")) _ _
    (Or.inl rfl) (by decide)

/- ----------------------------------------------------------------- -/
/- C1                                                                 -/
/- ----------------------------------------------------------------- -/

/-- C1: `evaluateValue` returns a string for every input (it is a total
function into `Str`), and whenever the internal tokenize/parse/evaluate
pipeline raises, the returned string is the original expression text
unchanged. -/
theorem c1_evaluate_catches_exceptions (clock : JsDate) (value : Str)
    (ctx : Option FileFields) (e : EvalErr)
    (h : evalPipeline clock value ctx = Except.error e) :
    evaluateValue clock value ctx = value := by
  unfold evaluateValue
  split
  · rfl
  · rw [h]

/-- Witness for C1: `replace('abc', '(', 'x')` makes the pipeline raise
(ill-formed regular expression), and `evaluateValue` returns the
expression text unchanged. -/
theorem c1_evaluate_catches_exceptions_witness :
    evalPipeline clock0 replaceBadRegexExpr none =
        Except.error EvalErr.regexUnsupported ∧
    evaluateValue clock0 replaceBadRegexExpr none = replaceBadRegexExpr :=
  ⟨by decide,
   c1_evaluate_catches_exceptions clock0 replaceBadRegexExpr none
     EvalErr.regexUnsupported (by decide)⟩

/- ----------------------------------------------------------------- -/
/- C8                                                                 -/
/- ----------------------------------------------------------------- -/

/-- C8: the `if` condition is falsy exactly when its trimmed,
lower-cased form is the empty string, `false`, `0`, `null` or
`undefined`; and on the concrete scenarios,
`evaluateValue "if('', 'yes', 'no')" = "no"` and
`evaluateValue "if('hello', 'yes', 'no')" = "yes"`. -/
theorem c8_if_truthiness :
    (∀ v : Str, evaluateTruthiness v = false ↔
        (jsTrim v).map jsToLowerChar ∈
          [([] : Str), lit "false", lit "0", lit "null", lit "undefined"]) ∧
    evaluateValue clock0 ifEmptyExpr none = lit "no" ∧
    evaluateValue clock0 ifHelloExpr none = lit "yes" := by
  refine ⟨fun v => ?_, by decide, by decide⟩
  unfold evaluateTruthiness
  dsimp only
  split
  · next h => simpa using h
  · next h => simpa using h

/- ----------------------------------------------------------------- -/
/- C9                                                                 -/
/- ----------------------------------------------------------------- -/

/-- Uppercase ASCII letter test. -/
def isUpperAZ (c : Char) : Bool := 65 ≤ c.toNat && c.toNat ≤ 90

/-- A string containing an uppercase letter or an underscore. -/
def hasUpperOrUnderscore (k : Str) : Bool :=
  k.any (fun c => isUpperAZ c || c == '_')

/-- The run returned by `takeRunP` together with the rest reassembles the
input. -/
theorem takeRunP_append (p : Char → Bool) (s : Str) :
    (takeRunP p s).1 ++ (takeRunP p s).2 = s := by
  induction s with
  | nil => rfl
  | cons c cs ih =>
    unfold takeRunP
    split
    · simpa using ih
    · rfl

/-- Every character of the run returned by `takeRunP` satisfies the
predicate. -/
theorem takeRunP_mem (p : Char → Bool) (s : Str) :
    ∀ c ∈ (takeRunP p s).1, p c = true := by
  induction s with
  | nil => intro c hc; cases hc
  | cons a as ih =>
    unfold takeRunP
    split
    · next hp =>
      intro c hc
      rcases List.mem_cons.mp hc with h1 | h2
      · exact h1 ▸ hp
      · exact ih c h2
    · intro c hc; cases hc

/-- Every character accepted by `kebabTail` is a key character or a
hyphen. -/
theorem kebabTail_chars (fuel : Nat) :
    ∀ s : Str, kebabTail fuel s = true →
      ∀ c ∈ s, isKeyChar c = true ∨ c = '-' := by
  induction fuel with
  | zero => intro s h; simp [kebabTail] at h
  | succ fu ih =>
    intro s h c hc
    cases s with
    | nil => cases hc
    | cons a as =>
      simp only [kebabTail] at h
      split at h
      · next ha =>
        rcases hr : takeRunP isKeyChar as with ⟨run, s2⟩
        rw [hr] at h
        cases run with
        | nil => simp at h
        | cons r rs =>
          rcases List.mem_cons.mp hc with h1 | h2
          · right; exact h1.trans ha
          · have hsplit : (r :: rs) ++ s2 = as := by
              have := takeRunP_append isKeyChar as
              rw [hr] at this; exact this
            rcases List.mem_append.mp (hsplit ▸ h2) with hm | hm
            · left
              have := takeRunP_mem isKeyChar as
              rw [hr] at this
              exact this c hm
            · exact ih s2 h c hm
      · simp at h

/-- Every character of a string accepted by `KEY_PATTERN` is a key
character or a hyphen. -/
theorem keyPatternTest_chars (k : Str) (h : keyPatternTest k = true) :
    ∀ c ∈ k, isKeyChar c = true ∨ c = '-' := by
  unfold keyPatternTest at h
  rcases hr : takeRunP isKeyChar k with ⟨run, rest⟩
  rw [hr] at h
  cases run with
  | nil => simp at h
  | cons r rs =>
    intro c hc
    have hsplit : (r :: rs) ++ rest = k := by
      have := takeRunP_append isKeyChar k
      rw [hr] at this; exact this
    rcases List.mem_append.mp (hsplit ▸ hc) with hm | hm
    · left
      have := takeRunP_mem isKeyChar k
      rw [hr] at this
      exact this c hm
    · exact kebabTail_chars (k.length + 1) rest h c hm

/-- C9: every kebab-case key passes `isValidKey`; every string
containing an uppercase letter or an underscore fails it, unless the
string is `prop.`-prefixed, in which case it is accepted. -/
theorem c9_is_valid_key :
    (∀ k : Str, keyPatternTest k = true → isValidKey k = true) ∧
    (∀ k : Str, hasUpperOrUnderscore k = true →
       isValidKey k = (lit "prop.").isPrefixOf k) := by
  constructor
  · intro k h
    unfold isValidKey
    by_cases hk : k = []
    · subst hk; exact absurd h (by decide)
    · rw [if_neg hk, h, Bool.true_or]
  · intro k h
    by_cases hpre : (lit "prop.").isPrefixOf k = true
    · -- prop.-prefixed: the offending character forces a non-empty
      -- remainder, so the property pattern accepts.
      obtain ⟨t, ht⟩ := List.isPrefixOf_iff_prefix.mp hpre
      cases t with
      | nil => exact absurd h (by rw [← ht]; decide)
      | cons a t2 =>
        have hlen : 5 < k.length := by
          rw [← ht, List.length_append]
          have h5 : (lit "prop.").length = 5 := by decide
          rw [h5]
          simp
        have hkne : k ≠ [] := by
          intro hk
          rw [hk] at hpre
          exact absurd hpre (by decide)
        unfold isValidKey propKeyPatternTest
        rw [if_neg hkne, hpre]
        simp [hlen]
    · have hpre2 : (lit "prop.").isPrefixOf k = false :=
        Bool.eq_false_iff.mpr hpre
      rw [hpre2]
      unfold isValidKey
      by_cases hk : k = []
      · rw [if_pos hk]
      · rw [if_neg hk]
        have hkp : keyPatternTest k = false := by
          rw [Bool.eq_false_iff]
          intro hkpt
          obtain ⟨c, hc, hcc⟩ := List.any_eq_true.mp h
          have hchar := keyPatternTest_chars k hkpt c hc
          rcases Bool.or_eq_true_iff.mp hcc with hup | hund
          · simp only [isUpperAZ, Bool.and_eq_true, decide_eq_true_eq] at hup
            rcases hchar with hkc | hdash
            · simp only [isKeyChar, Bool.or_eq_true, Bool.and_eq_true,
                decide_eq_true_eq] at hkc
              omega
            · rw [hdash] at hup
              exact absurd hup (by decide)
          · have hu : c = '_' := by
              have := beq_iff_eq.mp hund
              exact this
            subst hu
            rcases hchar with hkc | hdash
            · exact absurd hkc (by decide)
            · exact absurd hdash (by decide)
        have hpp : propKeyPatternTest k = false := by
          unfold propKeyPatternTest
          rw [hpre2, Bool.false_and]
        rw [hkp, hpp]
        rfl

/-- Witness for C9 at concrete keys: a kebab-case key is valid, an
uppercase/underscore key is invalid, and a `prop.`-prefixed key with
uppercase and spaces is valid. -/
theorem c9_is_valid_key_witness :
    isValidKey (lit "my-key") = true ∧
    isValidKey (lit "My_Key") = false ∧
    isValidKey (lit "prop.My Key") = true := by
  refine ⟨c9_is_valid_key.1 (lit "my-key") (by decide), ?_, ?_⟩
  · exact (c9_is_valid_key.2 (lit "My_Key") (by decide)).trans (by decide)
  · exact (c9_is_valid_key.2 (lit "prop.My Key") (by decide)).trans (by decide)

/- ----------------------------------------------------------------- -/
/- C10                                                                -/
/- ----------------------------------------------------------------- -/

/-- `pushUnique` preserves duplicate-freeness. -/
theorem pushUnique_nodup (l : List Str) (k : Str) (h : l.Nodup) :
    (pushUnique l k).Nodup := by
  unfold pushUnique
  split
  · exact h
  · next hk =>
    refine List.nodup_append.mpr ⟨h, List.nodup_singleton k, ?_⟩
    intro a ha hb
    exact hk (List.mem_singleton.mp hb ▸ ha)

/-- Each incomplete-expansion step preserves duplicate-freeness of the
reported unknown keys. -/
theorem processIncomplete_nodup (mode : ProcessingMode)
    (resolver : Str → Option Str) (st : IncState)
    (inc : IncompleteExpansion) (h : st.unknownKeys.Nodup) :
    (processIncomplete mode resolver st inc).unknownKeys.Nodup := by
  unfold processIncomplete
  repeat (first
    | exact h
    | exact pushUnique_nodup _ _ h
    | split
    | dsimp only)

/-- Each complete-match step preserves duplicate-freeness of the
reported unknown keys. -/
theorem processMatch_nodup (mode : ProcessingMode)
    (resolver : Str → Option Str) (st : MatchState) (m : ExpanderMatch)
    (h : st.unknownKeys.Nodup) :
    (processMatch mode resolver st m).unknownKeys.Nodup := by
  unfold processMatch
  repeat (first
    | exact h
    | exact pushUnique_nodup _ _ h
    | split
    | dsimp only)

/-- Folding incomplete-expansion steps preserves duplicate-freeness. -/
theorem foldlInc_nodup (mode : ProcessingMode)
    (resolver : Str → Option Str) (l : List IncompleteExpansion)
    (st : IncState) (h : st.unknownKeys.Nodup) :
    (l.foldl (processIncomplete mode resolver) st).unknownKeys.Nodup := by
  induction l generalizing st with
  | nil => exact h
  | cons a t ih =>
    exact ih _ (processIncomplete_nodup mode resolver st a h)

/-- Folding complete-match steps preserves duplicate-freeness. -/
theorem foldlMatch_nodup (mode : ProcessingMode)
    (resolver : Str → Option Str) (l : List ExpanderMatch)
    (st : MatchState) (h : st.unknownKeys.Nodup) :
    (l.foldl (processMatch mode resolver) st).unknownKeys.Nodup := by
  induction l generalizing st with
  | nil => exact h
  | cons a t ih =>
    exact ih _ (processMatch_nodup mode resolver st a h)

/-- The unknown keys of the incomplete-completion phase are
duplicate-free when the incoming list is. -/
theorem completeIncompleteExpansions_nodup (content : Str)
    (mode : ProcessingMode) (uk : List Str) (pu : List PropertyUpdate)
    (resolver : Str → Option Str) (h : uk.Nodup) :
    (completeIncompleteExpansions content mode uk pu resolver).unknownKeys.Nodup := by
  unfold completeIncompleteExpansions
  dsimp only
  split
  · exact h
  · exact foldlInc_nodup mode resolver _ _ h

/-- C10: the `unknownKeys` list returned by `replaceExpansions` contains
each unresolved key at most once, for every document text, processing
mode and resolver — both reporting sites guard their push with a
membership test. -/
theorem c10_unknown_keys_nodup (content : Str) (mode : ProcessingMode)
    (resolver : Str → Option Str) :
    (replaceExpansions content mode resolver).unknownKeys.Nodup := by
  unfold replaceExpansions
  dsimp only
  exact foldlMatch_nodup mode resolver _ _
    (completeIncompleteExpansions_nodup content mode [] [] resolver
      List.nodup_nil)
